import Mathlib

/-! NVM export (`src/theia/io/write_nvm_file.cc`)

A shallow embedding of `theia::WriteNVMFile` and theorems about it.

* The scalar type `S` stands for `double`.  The exporter only subtracts
  (feature minus principal point) and divides (`hnormalized`), so the
  embedding is parametric in `S` with `[Sub S] [Div S]`.
* An output stream is the list of items pushed into it with `<<`, oldest
  first (`Tok`).  `std::endl` is the item `Tok.endl`; a line is a maximal run
  of items between two `Tok.endl`.
* `std::unordered_map` is an association list with distinct keys (`UMap`);
  only `size`, `operator[]` assignment and key lookup are used by the code, so
  iteration order of the map never matters.
* Containers hold fewer than `2^31` entries, so the conversions of a
  `size()` to `int` at lines 66, 91 and 127 are exact and are modelled on
  `Nat`/`Int` without wrap-around.
* Dereferencing a null pointer and a failed `FindOrDie` both end the run on
  the spot (`Fault`), with the streams as they were at that moment.
-/

namespace theia

/-! ## Associative containers -/

/-- The `std::unordered_map<K, V>`: an association list whose keys stay distinct. -/
abbrev UMap (K V : Type) := List (K × V)

namespace UMap

variable {K V : Type} [DecidableEq K]

/-- Key lookup, the `find` behind `FindOrDie` and `FindOrNull`. -/
def find? : UMap K V → K → Option V
  | [], _ => none
  | (k', v) :: m, k => if k' = k then some v else find? m k

/-- The assignment `m[k] = v`: overwrite the entry of `k` or add a new one. -/
def assign : UMap K V → K → V → UMap K V
  | [], k, v => [(k, v)]
  | (k', v') :: m, k, v => if k' = k then (k, v) :: m else (k', v') :: assign m k v

/-- The `size()` of the map. -/
def size (m : UMap K V) : Nat := m.length

end UMap

/-! ## The reconstruction interface consumed by the exporter -/

abbrev ViewId := Nat
abbrev TrackId := Nat

/-- Modelled from the spec: `Feature` (declared outside `write_nvm_file.cc`) is
a 2D pixel observation `(x, y)`. -/
structure Feature (S : Type) where
  x : S
  y : S
  deriving DecidableEq, Repr

/-- The `operator-` of `Feature` used at lines 155-157: componentwise. -/
instance {S : Type} [Sub S] : Sub (Feature S) :=
  ⟨fun a b => ⟨a.x - b.x, a.y - b.y⟩⟩

structure Vector3 (S : Type) where
  x : S
  y : S
  z : S
  deriving DecidableEq, Repr

structure Vector4 (S : Type) where
  x : S
  y : S
  z : S
  w : S
  deriving DecidableEq, Repr

/-- The `hnormalized()` of a homogeneous point: perspective division. -/
def Vector4.hnormalized {S : Type} [Div S] (p : Vector4 S) : Vector3 S :=
  ⟨p.x / p.w, p.y / p.w, p.z / p.w⟩

structure Quaternion (S : Type) where
  w : S
  x : S
  y : S
  z : S
  deriving DecidableEq, Repr

/-- Modelled from the spec: the intrinsics-model tag of a camera (declared
outside `write_nvm_file.cc`); the exporter only tests it against `PINHOLE`. -/
inductive CameraIntrinsicsModelType
  | PINHOLE
  | PINHOLE_RADIAL_TANGENTIAL
  | FISHEYE
  | FOV
  | DIVISION_UNDISTORTION
  deriving DecidableEq, Repr

/-- Modelled from the spec: the `Camera` class is declared outside
`write_nvm_file.cc`; these are the attributes the exporter reads from it.
`OrientationQuaternion` is `Eigen::Quaterniond(GetOrientationAsRotationMatrix())`
and `RadialDistortion1` is
`CameraIntrinsics()->GetParameter(PinholeCameraModel::RADIAL_DISTORTION_1)`. -/
structure Camera (S : Type) where
  OrientationQuaternion : Quaternion S
  GetPosition : Vector3 S
  FocalLength : S
  PrincipalPointX : S
  PrincipalPointY : S
  GetCameraIntrinsicsModelType : CameraIntrinsicsModelType
  RadialDistortion1 : S

/-- Modelled from the spec: the `View` class is declared outside
`write_nvm_file.cc`; a view has a name, a camera, the list of track ids it
observes and a feature lookup by track id (`none` is the null pointer). -/
structure View (S : Type) where
  Name : String
  Camera : Camera S
  TrackIds : List TrackId
  GetFeature : TrackId → Option (Feature S)

/-- Modelled from the spec: the `Track` class is declared outside
`write_nvm_file.cc`; a track has a homogeneous 3D point, a colour (already as
the three `int` of `Color().cast<int>()`) and the list of the views observing
it. -/
structure Track (S : Type) where
  Point : Vector4 S
  Color : Vector3 Int
  ViewIds : List ViewId

/-- Modelled from the spec: `Track::NumViews` is declared outside
`write_nvm_file.cc`; it is the number of views observing the track. -/
def Track.NumViews {S : Type} (t : Track S) : Int := (t.ViewIds.length : Int)

/-- Modelled from the spec: the `Reconstruction` class is declared outside
`write_nvm_file.cc`; it stores views and tracks under their ids, exposes the
full set of ids and looks a view or track up by id. -/
structure Reconstruction (S : Type) where
  views_ : List (ViewId × View S)
  tracks_ : List (TrackId × Track S)

namespace Reconstruction

variable {S : Type}

/-- The ids of the stored views, in iteration order. -/
def ViewIds (r : Reconstruction S) : List ViewId := r.views_.map Prod.fst

/-- The ids of the stored tracks, in iteration order. -/
def TrackIds (r : Reconstruction S) : List TrackId := r.tracks_.map Prod.fst

/-- View lookup by id; `none` is the null pointer. -/
def View (r : Reconstruction S) (view_id : ViewId) : Option (View S) :=
  UMap.find? r.views_ view_id

/-- Track lookup by id; `none` is the null pointer. -/
def Track (r : Reconstruction S) (track_id : TrackId) : Option (Track S) :=
  UMap.find? r.tracks_ track_id

end Reconstruction

/-! ## Streams and the state of a run -/

/-- One item pushed into an output stream with `<<`. -/
inductive Tok (S : Type)
  | str (s : String)
  | real (x : S)
  | int (i : Int)
  | endl
  deriving DecidableEq, Repr

/-- A message on the console: `std::cout` or `LOG(WARNING)`. -/
inductive Msg
  | cout (s : String)
  | warning (s : String)
  deriving DecidableEq, Repr

/-- How a run ends abnormally. -/
inductive Fault
  | nullDeref
  | findOrDie
  deriving DecidableEq, Repr

/-- How a run ends: the returned `bool`, or a crash. -/
inductive Outcome
  | returned (b : Bool)
  | crashed (f : Fault)
  deriving DecidableEq, Repr

/-- The local variables of `WriteNVMFile` once both streams are open. -/
structure St (S : Type) where
  nvm_fh : List (Tok S)
  offset_fh : List (Tok S)
  console : List Msg
  view_id_to_index : UMap ViewId Int
  feature_index_mapping : UMap ViewId (UMap TrackId Int)
  printed_warning : Bool

/-- The statement `nvm_fh << ...`: the items are appended to the primary stream. -/
def St.nvm_write {S : Type} (st : St S) (items : List (Tok S)) : St S :=
  { st with nvm_fh := st.nvm_fh ++ items }

/-- A loop either runs to its end or the run crashes inside it. -/
inductive Step (S : Type)
  | ok (st : St S)
  | fault (f : Fault) (st : St S)

/-- What a call of `WriteNVMFile` leaves behind.  A file is `none` when it was
never created and otherwise holds what its stream received; `open_calls` lists
the paths `open` was called on. -/
structure Result (S : Type) where
  outcome : Outcome
  nvm_file : Option (List (Tok S))
  offset_file : Option (List (Tok S))
  open_calls : List String
  console : List Msg

/-! ## The exporter -/

section Exporter

variable {S : Type} [Sub S] [Div S]

/-- Line 68: `nvm_filepath.substr(0, std::max(file_len - 4, 0)) + "_offsets.txt"`. -/
def offset_path (nvm_filepath : String) : String :=
  let file_len : Int := (nvm_filepath.length : Int)
  String.mk (nvm_filepath.data.take (max (file_len - 4) 0).toNat) ++ "_offsets.txt"

/-- The one-time notice of lines 99-100. -/
def poseOnlyNotice : Msg :=
  Msg.cout "Will save the camera poses, but not the intrinsics, to the NVM output file.\n"

/-- Lines 110-118: the fields the camera loop pushes into `nvm_fh` for one
view, up to the closing `std::endl`. -/
def cameraFields (view : View S) : List (Tok S) :=
  let camera := view.Camera
  let quat := camera.OrientationQuaternion
  let position := camera.GetPosition
  [Tok.str view.Name, Tok.str " ", Tok.real camera.FocalLength, Tok.str " ", Tok.real quat.w,
   Tok.str " ", Tok.real quat.x, Tok.str " ", Tok.real quat.y, Tok.str " ", Tok.real quat.z,
   Tok.str " ", Tok.real position.x, Tok.str " ", Tok.real position.y, Tok.str " ",
   Tok.real position.z, Tok.str " "]
  ++ (if camera.GetCameraIntrinsicsModelType = CameraIntrinsicsModelType.PINHOLE
      then [Tok.real camera.RadialDistortion1]
      else [Tok.str "0"])
  ++ [Tok.str " 0"]

/-- Lines 110-118: what the camera loop pushes into `nvm_fh` for one view. -/
def cameraRecord (view : View S) : List (Tok S) :=
  cameraFields view ++ [Tok.endl]

/-- Lines 120-122: what the camera loop pushes into `offset_fh` for one view. -/
def offsetRecord (view : View S) : List (Tok S) :=
  [Tok.str view.Name, Tok.str " ", Tok.real view.Camera.PrincipalPointX, Tok.str " ",
   Tok.real view.Camera.PrincipalPointY, Tok.str "\n"]

/-- Line 129: `feature_index_mapping[view_id][track_id] = i`. -/
def assignFeatureIndex (m : UMap ViewId (UMap TrackId Int)) (view_id : ViewId)
    (track_id : TrackId) (i : Int) : UMap ViewId (UMap TrackId Int) :=
  UMap.assign m view_id (UMap.assign ((UMap.find? m view_id).getD []) track_id i)

/-- Lines 127-130: the loop over `view_track_ids`, entered with counter `i`. -/
def featureLoop (view_id : ViewId) :
    List TrackId → Nat → UMap ViewId (UMap TrackId Int) → UMap ViewId (UMap TrackId Int)
  | [], _, m => m
  | track_id :: rest, i, m =>
    featureLoop view_id rest (i + 1) (assignFeatureIndex m view_id track_id (i : Int))

/-- Lines 91-130: the body of the camera loop. -/
def cameraBody (reconstruction : Reconstruction S) (view_id : ViewId) (st : St S) : Step S :=
  let current_index : Int := (UMap.size st.view_id_to_index : Int)
  let st1 : St S :=
    { st with view_id_to_index := UMap.assign st.view_id_to_index view_id current_index }
  match reconstruction.View view_id with
  | none => Step.fault Fault.nullDeref st1
  | some view =>
    let st2 : St S :=
      if st1.printed_warning then st1
      else { st1 with console := st1.console ++ [poseOnlyNotice], printed_warning := true }
    Step.ok
      { st2 with
        nvm_fh := st2.nvm_fh ++ cameraRecord view
        offset_fh := st2.offset_fh ++ offsetRecord view
        feature_index_mapping := featureLoop view_id view.TrackIds 0 st2.feature_index_mapping }

/-- Lines 90-131: the camera loop over `view_ids`. -/
def cameraLoop (reconstruction : Reconstruction S) : List ViewId → St S → Step S
  | [], st => Step.ok st
  | view_id :: rest, st =>
    match cameraBody reconstruction view_id st with
    | Step.ok st1 => cameraLoop reconstruction rest st1
    | Step.fault f st1 => Step.fault f st1

/-- Lines 162-163: the group pushed into `nvm_fh` for one observation. -/
def observationGroup (view_index track_index : Int) (feature : Feature S) : List (Tok S) :=
  [Tok.int view_index, Tok.str " ", Tok.int track_index, Tok.str " ", Tok.real feature.x,
   Tok.str " ", Tok.real feature.y, Tok.str " "]

/-- Lines 151-163: the body of the loop over the views observing a track.
`view->Camera()` and `*view->GetFeature(track_id)` dereference a pointer that
is null when the lookup misses, and each `FindOrDie` ends the run when its key
is absent. -/
def observationBody (reconstruction : Reconstruction S) (track_id : TrackId) (view_id : ViewId)
    (st : St S) : Step S :=
  match reconstruction.View view_id with
  | none => Step.fault Fault.nullDeref st
  | some view =>
    let camera := view.Camera
    match view.GetFeature track_id with
    | none => Step.fault Fault.nullDeref st
    | some raw =>
      let feature : Feature S := raw - Feature.mk camera.PrincipalPointX camera.PrincipalPointY
      match UMap.find? st.feature_index_mapping view_id with
      | none => Step.fault Fault.findOrDie st
      | some view_features =>
        match UMap.find? view_features track_id with
        | none => Step.fault Fault.findOrDie st
        | some track_index =>
          match UMap.find? st.view_id_to_index view_id with
          | none => Step.fault Fault.findOrDie st
          | some view_index =>
            Step.ok (st.nvm_write (observationGroup view_index track_index feature))

/-- Lines 150-164: the loop over `views_observing_track`. -/
def observationLoop (reconstruction : Reconstruction S) (track_id : TrackId) :
    List ViewId → St S → Step S
  | [], st => Step.ok st
  | view_id :: rest, st =>
    match observationBody reconstruction track_id view_id st with
    | Step.ok st1 => observationLoop reconstruction track_id rest st1
    | Step.fault f st1 => Step.fault f st1

/-- Lines 144-146: the fields of a point record before its observations. -/
def pointPrefix (track : Track S) : List (Tok S) :=
  let position := track.Point.hnormalized
  let color := track.Color
  [Tok.real position.x, Tok.str " ", Tok.real position.y, Tok.str " ", Tok.real position.z,
   Tok.str " ", Tok.int color.x, Tok.str " ", Tok.int color.y, Tok.str " ", Tok.int color.z,
   Tok.str " ", Tok.int track.NumViews, Tok.str " "]

/-- Lines 138-165: the body of the point loop. -/
def trackBody (reconstruction : Reconstruction S) (track_id : TrackId) (st : St S) : Step S :=
  match reconstruction.Track track_id with
  | none => Step.fault Fault.nullDeref st
  | some track =>
    let st1 : St S := st.nvm_write (pointPrefix track)
    match observationLoop reconstruction track_id track.ViewIds st1 with
    | Step.ok st2 => Step.ok (st2.nvm_write [Tok.endl])
    | Step.fault f st2 => Step.fault f st2

/-- Lines 137-166: the point loop over `track_ids`. -/
def trackLoop (reconstruction : Reconstruction S) : List TrackId → St S → Step S
  | [], st => Step.ok st
  | track_id :: rest, st =>
    match trackBody reconstruction track_id st with
    | Step.ok st1 => trackLoop reconstruction rest st1
    | Step.fault f st1 => Step.fault f st1

/-- Lines 80-84: the header and the number of cameras. -/
def headerItems (reconstruction : Reconstruction S) : List (Tok S) :=
  [Tok.str "NVM_V3 ", Tok.endl, Tok.endl, Tok.int (reconstruction.ViewIds.length : Int), Tok.endl]

/-- Lines 80-89: the streams and locals on entry to the camera loop. -/
def initialState (reconstruction : Reconstruction S) (console : List Msg) : St S :=
  { nvm_fh := headerItems reconstruction
    offset_fh := []
    console := console
    view_id_to_index := []
    feature_index_mapping := []
    printed_warning := false }

/-- Lines 83-131: the camera pass, from the header to the end of the camera loop. -/
def cameraPass (reconstruction : Reconstruction S) (console : List Msg) : Step S :=
  cameraLoop reconstruction reconstruction.ViewIds (initialState reconstruction console)

/-- Lines 134-166: the point pass, entered in the state the camera pass left. -/
def pointPass (reconstruction : Reconstruction S) (st : St S) : Step S :=
  trackLoop reconstruction reconstruction.TrackIds
    (st.nvm_write [Tok.int (reconstruction.TrackIds.length : Int), Tok.endl])

/-- What a crash leaves behind: both files as their streams stood. -/
def crashResult (f : Fault) (st : St S) (open_calls : List String) : Result S :=
  { outcome := Outcome.crashed f
    nvm_file := some st.nvm_fh
    offset_file := some st.offset_fh
    open_calls := open_calls
    console := st.console }

/-- The function `WriteNVMFile` (lines 52-172).  `is_open path` tells whether
opening `path` for writing succeeds. -/
def WriteNVMFile (is_open : String → Bool) (nvm_filepath : String)
    (reconstruction : Reconstruction S) : Result S :=
  let console0 := [Msg.cout ("Writing nvm: " ++ nvm_filepath)]
  if !is_open nvm_filepath then
    { outcome := Outcome.returned false
      nvm_file := none
      offset_file := none
      open_calls := [nvm_filepath]
      console := console0 ++ [Msg.warning ("Could not open nvm file for writing: " ++ nvm_filepath)] }
  else
    let console1 := console0 ++ [Msg.cout ("Writing optical offsets: " ++ offset_path nvm_filepath)]
    let open_calls := [nvm_filepath, offset_path nvm_filepath]
    if !is_open (offset_path nvm_filepath) then
      { outcome := Outcome.returned false
        nvm_file := some []
        offset_file := none
        open_calls := open_calls
        console := console1 ++
          [Msg.warning ("Could not open file for writing: " ++ offset_path nvm_filepath)] }
    else
      match cameraPass reconstruction console1 with
      | Step.fault f st => crashResult f st open_calls
      | Step.ok st =>
        match pointPass reconstruction st with
        | Step.fault f st1 => crashResult f st1 open_calls
        | Step.ok st1 =>
          { outcome := Outcome.returned true
            nvm_file := some (st1.nvm_fh ++ [Tok.str "0", Tok.endl])
            offset_file := some st1.offset_fh
            open_calls := open_calls
            console := st1.console }

end Exporter

/-! ## Auxiliary functions used to state the theorems -/

section Auxiliary

variable {S : Type} [Sub S] [Div S]

/-- The lines of a stream: the runs of items ended by `Tok.endl`, then the
unfinished last line when it is not empty.  `cur` is the line being read. -/
def linesAux : List (Tok S) → List (Tok S) → List (List (Tok S))
  | [], [] => []
  | [], t :: cur => [t :: cur]
  | Tok.endl :: rest, cur => cur :: linesAux rest []
  | t :: rest, cur => linesAux rest (cur ++ [t])

/-- The lines of a stream. -/
def lines (out : List (Tok S)) : List (List (Tok S)) := linesAux out []

/-- The lookup `FindOrDie(FindOrDie(feature_index_mapping, view_id), track_id)` of
line 160, with `none` where either `FindOrDie` would die. -/
def findFeatureIndex (m : UMap ViewId (UMap TrackId Int)) (view_id : ViewId)
    (track_id : TrackId) : Option Int :=
  (UMap.find? m view_id).bind (fun view_features => UMap.find? view_features track_id)

/-- Lines 91-92 alone, iterated over `view_ids`: the view-index map of the camera loop. -/
def viewIndexLoop : List ViewId → UMap ViewId Int → UMap ViewId Int
  | [], m => m
  | view_id :: rest, m => viewIndexLoop rest (UMap.assign m view_id (UMap.size m : Int))

/-- Lines 126-130 alone, iterated over `view_ids`: the feature-index map of the camera loop. -/
def featureIndexLoop (reconstruction : Reconstruction S) :
    List ViewId → UMap ViewId (UMap TrackId Int) → UMap ViewId (UMap TrackId Int)
  | [], m => m
  | view_id :: rest, m =>
    match reconstruction.View view_id with
    | none => m
    | some view => featureIndexLoop reconstruction rest (featureLoop view_id view.TrackIds 0 m)

/-- The camera record of the view stored under `view_id` (lines 110-118). -/
def cameraRecordOf (reconstruction : Reconstruction S) (view_id : ViewId) : List (Tok S) :=
  match reconstruction.View view_id with
  | some view => cameraRecord view
  | none => []

/-- The offsets record of the view stored under `view_id` (lines 120-122). -/
def offsetRecordOf (reconstruction : Reconstruction S) (view_id : ViewId) : List (Tok S) :=
  match reconstruction.View view_id with
  | some view => offsetRecord view
  | none => []

/-- Lines 151-163 as a function of the two index maps: the `view_index`, the
`track_index` and the shifted feature of one observation, or the fault the
body ends in. -/
def observationResult (reconstruction : Reconstruction S) (vmap : UMap ViewId Int)
    (fmap : UMap ViewId (UMap TrackId Int)) (track_id : TrackId) (view_id : ViewId) :
    Except Fault (Int × Int × Feature S) :=
  match reconstruction.View view_id with
  | none => Except.error Fault.nullDeref
  | some view =>
    match view.GetFeature track_id with
    | none => Except.error Fault.nullDeref
    | some raw =>
      match findFeatureIndex fmap view_id track_id with
      | none => Except.error Fault.findOrDie
      | some track_index =>
        match UMap.find? vmap view_id with
        | none => Except.error Fault.findOrDie
        | some view_index =>
          Except.ok (view_index, track_index,
            raw - Feature.mk view.Camera.PrincipalPointX view.Camera.PrincipalPointY)

/-- The items of one observation group, from its three values. -/
def renderGroup (g : Int × Int × Feature S) : List (Tok S) :=
  observationGroup g.1 g.2.1 g.2.2

/-- The group pushed for one observation, nothing where the body faults. -/
def groupOf (reconstruction : Reconstruction S) (vmap : UMap ViewId Int)
    (fmap : UMap ViewId (UMap TrackId Int)) (track_id : TrackId) (view_id : ViewId) :
    List (Tok S) :=
  match observationResult reconstruction vmap fmap track_id view_id with
  | Except.ok g => renderGroup g
  | Except.error _ => []

/-- The observations of `track_id` by the views of the list, in order, those
where the body faults left out. -/
def groupsOf (reconstruction : Reconstruction S) (vmap : UMap ViewId Int)
    (fmap : UMap ViewId (UMap TrackId Int)) (track_id : TrackId) :
    List ViewId → List (Int × Int × Feature S)
  | [] => []
  | view_id :: rest =>
    match observationResult reconstruction vmap fmap track_id view_id with
    | Except.ok g => g :: groupsOf reconstruction vmap fmap track_id rest
    | Except.error _ => groupsOf reconstruction vmap fmap track_id rest

/-- The fields of the camera record of the view stored under `view_id`. -/
def cameraLineOf (reconstruction : Reconstruction S) (view_id : ViewId) : List (Tok S) :=
  match reconstruction.View view_id with
  | some view => cameraFields view
  | none => []

/-- The view-index map at the end of the camera pass. -/
def finalViewIndex (reconstruction : Reconstruction S) : UMap ViewId Int :=
  viewIndexLoop reconstruction.ViewIds []

/-- The feature-index map at the end of the camera pass. -/
def finalFeatureIndex (reconstruction : Reconstruction S) : UMap ViewId (UMap TrackId Int) :=
  featureIndexLoop reconstruction reconstruction.ViewIds []

/-- What the primary stream holds at the end of the camera pass. -/
def cameraSection (reconstruction : Reconstruction S) : List (Tok S) :=
  headerItems reconstruction ++ reconstruction.ViewIds.flatMap (cameraRecordOf reconstruction)

/-- The fields of the point record of the track stored under `track_id`, up to
the closing `std::endl`. -/
def pointLineOf (reconstruction : Reconstruction S) (vmap : UMap ViewId Int)
    (fmap : UMap ViewId (UMap TrackId Int)) (track_id : TrackId) : List (Tok S) :=
  match reconstruction.Track track_id with
  | none => []
  | some track =>
    pointPrefix track ++ track.ViewIds.flatMap (groupOf reconstruction vmap fmap track_id)

/-- The whole point record of the track stored under `track_id` (lines 144-165). -/
def pointRecordOf (reconstruction : Reconstruction S) (vmap : UMap ViewId Int)
    (fmap : UMap ViewId (UMap TrackId Int)) (track_id : TrackId) : List (Tok S) :=
  match reconstruction.Track track_id with
  | none => []
  | some track =>
    pointPrefix track ++ track.ViewIds.flatMap (groupOf reconstruction vmap fmap track_id)
      ++ [Tok.endl]

/-- The body of the observation loop runs through for `view_id` under `track_id`. -/
def obsOk (reconstruction : Reconstruction S) (vmap : UMap ViewId Int)
    (fmap : UMap ViewId (UMap TrackId Int)) (track_id : TrackId) (view_id : ViewId) : Bool :=
  (observationResult reconstruction vmap fmap track_id view_id).toBool

/-- Every observation of the track stored under `track_id` runs through. -/
def trackOk (reconstruction : Reconstruction S) (vmap : UMap ViewId Int)
    (fmap : UMap ViewId (UMap TrackId Int)) (track_id : TrackId) : Bool :=
  match reconstruction.Track track_id with
  | none => false
  | some track => track.ViewIds.all (obsOk reconstruction vmap fmap track_id)

/-- The camera with its intrinsics-model tag replaced. -/
def Camera.withModelType (camera : Camera S) (tag : CameraIntrinsicsModelType) : Camera S :=
  { camera with GetCameraIntrinsicsModelType := tag }

/-- The view with the intrinsics-model tag of its camera replaced. -/
def View.withModelType (view : View S) (tag : CameraIntrinsicsModelType) : View S :=
  { view with Camera := view.Camera.withModelType tag }

/-- The reconstruction in which the camera of each view `v` carries the
intrinsics-model tag `tags v`, everything else unchanged. -/
def Reconstruction.withModelTypes (reconstruction : Reconstruction S)
    (tags : ViewId → CameraIntrinsicsModelType) : Reconstruction S :=
  { reconstruction with
    views_ := reconstruction.views_.map (fun p => (p.1, p.2.withModelType (tags p.1))) }

end Auxiliary

/-! ## A worked example: views 5 and 9, track 3 seen by both -/

def exampleCamera : Camera Int :=
  { OrientationQuaternion := ⟨1, 0, 0, 0⟩
    GetPosition := ⟨0, 0, 0⟩
    FocalLength := 1
    PrincipalPointX := 0
    PrincipalPointY := 0
    GetCameraIntrinsicsModelType := CameraIntrinsicsModelType.PINHOLE
    RadialDistortion1 := 0 }

def exampleFeature (p : Int) : TrackId → Option (Feature Int) :=
  fun t => if t = 3 then some ⟨p, p⟩ else none

def exampleReconstruction : Reconstruction Int :=
  { views_ := [(5, ⟨"a.jpg", exampleCamera, [3], exampleFeature 10⟩),
               (9, ⟨"b.jpg", exampleCamera, [3], exampleFeature 20⟩)]
    tracks_ := [(3, ⟨⟨1, 2, 3, 1⟩, ⟨255, 0, 0⟩, [5, 9]⟩)] }

/-- The worked example with principal point `(3, 4)` in the camera of view 5;
the camera of view 9 keeps principal point `(0, 0)`. -/
def shiftedReconstruction : Reconstruction Int :=
  { views_ :=
      [(5, ⟨"a.jpg", { exampleCamera with
                        PrincipalPointX := 3
                        PrincipalPointY := 4 },
            [3], exampleFeature 10⟩),
       (9, ⟨"b.jpg", exampleCamera, [3], exampleFeature 20⟩)]
    tracks_ := [(3, ⟨⟨1, 2, 3, 1⟩, ⟨255, 0, 0⟩, [5, 9]⟩)] }

/-- A reconstruction that breaks the invariant of the exporter: track 3 lists
view 5, which has a feature for it but an empty track list. -/
def inconsistentReconstruction : Reconstruction Int :=
  { views_ := [(5, ⟨"a.jpg", exampleCamera, [], exampleFeature 10⟩)]
    tracks_ := [(3, ⟨⟨1, 2, 3, 1⟩, ⟨255, 0, 0⟩, [5]⟩)] }

/-- The worked example with distortion parameter 7 in both cameras and view 9
turned into a fisheye camera. -/
def fisheyeReconstruction : Reconstruction Int :=
  { views_ :=
      [(5, ⟨"a.jpg", { exampleCamera with RadialDistortion1 := 7 }, [3], exampleFeature 10⟩),
       (9, ⟨"b.jpg", { exampleCamera with
                        RadialDistortion1 := 7
                        GetCameraIntrinsicsModelType := CameraIntrinsicsModelType.FISHEYE },
            [3], exampleFeature 20⟩)]
    tracks_ := [(3, ⟨⟨1, 2, 3, 1⟩, ⟨255, 0, 0⟩, [5, 9]⟩)] }

/-- The reconstruction with no views and no tracks. -/
def emptyReconstruction : Reconstruction Int :=
  { views_ := []
    tracks_ := [] }

/-! ## The text of a stream -/

/-- The characters one item puts into the file.  `fmt` prints a `double` at the
precision set at lines 62 and 77; an `int` or a `size_t` is printed in decimal
and `std::endl` is a newline. -/
def Tok.text {S : Type} (fmt : S → String) : Tok S → String
  | Tok.str s => s
  | Tok.real x => fmt x
  | Tok.int i => toString i
  | Tok.endl => "\n"

/-- The text of a stream: the texts of its items, one after the other. -/
def renderText {S : Type} (fmt : S → String) (items : List (Tok S)) : String :=
  String.join (items.map (Tok.text fmt))

/-- How many times the pose-only notice occurs on a console. -/
def noticeCount (console : List Msg) : Nat :=
  console.count poseOnlyNotice

/-! ## Lemmas on the containers -/

namespace UMap

variable {K V : Type} [DecidableEq K]

theorem find?_assign_self (m : UMap K V) (k : K) (v : V) :
    find? (assign m k v) k = some v := by
  induction m with
  | nil => simp [assign, find?]
  | cons p m ih =>
    obtain ⟨k', v'⟩ := p
    by_cases h : k' = k
    · simp [assign, find?, h]
    · simp [assign, find?, h, ih]

theorem find?_assign_ne (m : UMap K V) {k k' : K} (v : V) (h : k ≠ k') :
    find? (assign m k v) k' = find? m k' := by
  induction m with
  | nil => simp [assign, find?, h]
  | cons p m ih =>
    obtain ⟨k0, v0⟩ := p
    by_cases h0 : k0 = k
    · subst h0
      simp [assign, find?, h]
    · simp [assign, find?, h0, ih]

theorem size_assign_of_none (m : UMap K V) (k : K) (v : V) (h : find? m k = none) :
    size (assign m k v) = size m + 1 := by
  induction m with
  | nil => simp [assign, size]
  | cons p m ih =>
    obtain ⟨k0, v0⟩ := p
    by_cases h0 : k0 = k
    · simp [find?, h0] at h
    · simp only [find?, h0, if_false] at h
      have := ih h
      simp only [size] at this
      simp [assign, h0, size, this]

theorem find?_isSome_iff_mem (m : UMap K V) (k : K) :
    (find? m k).isSome ↔ k ∈ m.map Prod.fst := by
  induction m with
  | nil => simp [find?]
  | cons p m ih =>
    obtain ⟨k0, v0⟩ := p
    by_cases h0 : k0 = k
    · simp [find?, h0]
    · have h1 : ¬ k = k0 := fun h => h0 h.symm
      simp [find?, h0, h1, ih]

theorem find?_mem (m : UMap K V) (k : K) (v : V) (h : find? m k = some v) : (k, v) ∈ m := by
  induction m with
  | nil => simp [find?] at h
  | cons p m ih =>
    obtain ⟨k0, v0⟩ := p
    by_cases h0 : k0 = k
    · simp [find?, h0] at h
      simp [h0, h]
    · simp only [find?, h0, if_false] at h
      exact List.mem_cons_of_mem _ (ih h)

end UMap

/-! ## Lemmas on the two index maps -/

section IndexMaps

variable {S : Type}

theorem findFeatureIndex_assign (m : UMap ViewId (UMap TrackId Int)) (v v' : ViewId)
    (t t' : TrackId) (i : Int) :
    findFeatureIndex (assignFeatureIndex m v t i) v' t' =
      if v' = v ∧ t' = t then some i else findFeatureIndex m v' t' := by
  unfold findFeatureIndex assignFeatureIndex
  by_cases hv : v' = v
  · subst hv
    rw [UMap.find?_assign_self]
    by_cases ht : t' = t
    · subst ht
      simp [UMap.find?_assign_self]
    · have ht' : t ≠ t' := fun h => ht h.symm
      simp only [Option.bind, ht, and_false, if_false]
      rw [UMap.find?_assign_ne _ _ ht']
      cases h : UMap.find? m v' <;> simp [UMap.find?]
  · have hv' : v ≠ v' := fun h => hv h.symm
    rw [UMap.find?_assign_ne _ _ hv']
    simp [hv]

theorem findFeatureIndex_featureLoop_other (v v' : ViewId) (hv : v' ≠ v) (t : TrackId) :
    ∀ (ts : List TrackId) (i : Nat) (m : UMap ViewId (UMap TrackId Int)),
      findFeatureIndex (featureLoop v ts i m) v' t = findFeatureIndex m v' t := by
  intro ts
  induction ts with
  | nil => intro i m; rfl
  | cons a rest ih =>
    intro i m
    simp only [featureLoop]
    rw [ih, findFeatureIndex_assign]
    simp [hv]

theorem findFeatureIndex_featureLoop_not_mem (v : ViewId) (t : TrackId) :
    ∀ (ts : List TrackId) (i : Nat) (m : UMap ViewId (UMap TrackId Int)), t ∉ ts →
      findFeatureIndex (featureLoop v ts i m) v t = findFeatureIndex m v t := by
  intro ts
  induction ts with
  | nil => intro i m _; rfl
  | cons a rest ih =>
    intro i m hmem
    simp only [List.mem_cons, not_or] at hmem
    simp only [featureLoop]
    rw [ih _ _ hmem.2, findFeatureIndex_assign]
    simp [hmem.1]

theorem findFeatureIndex_featureLoop_mem (v : ViewId) (t : TrackId) :
    ∀ (ts : List TrackId) (i : Nat) (m : UMap ViewId (UMap TrackId Int)), t ∈ ts →
      ∃ j : Nat, ts[j]? = some t ∧
        findFeatureIndex (featureLoop v ts i m) v t = some ((i + j : Nat) : Int) := by
  intro ts
  induction ts with
  | nil => intro i m h; simp at h
  | cons a rest ih =>
    intro i m hmem
    simp only [featureLoop]
    by_cases hr : t ∈ rest
    · obtain ⟨j, hj, hf⟩ := ih (i + 1) (assignFeatureIndex m v a (i : Int)) hr
      refine ⟨j + 1, by simpa using hj, ?_⟩
      rw [hf]
      congr 2
      omega
    · have hta : t = a := by
        rcases List.mem_cons.mp hmem with h | h
        · exact h
        · exact absurd h hr
      subst hta
      refine ⟨0, by simp, ?_⟩
      rw [findFeatureIndex_featureLoop_not_mem _ _ _ _ _ hr, findFeatureIndex_assign]
      simp

theorem getElem?_inj_of_nodup {α : Type} {l : List α} (h : l.Nodup) {j k : Nat} {a : α}
    (hj : l[j]? = some a) (hk : l[k]? = some a) : j = k := by
  obtain ⟨hj', hja⟩ := List.getElem?_eq_some.mp hj
  obtain ⟨hk', hka⟩ := List.getElem?_eq_some.mp hk
  exact (List.Nodup.getElem_inj_iff h).mp (hja.trans hka.symm)

theorem findFeatureIndex_featureLoop_nodup (v : ViewId) (ts : List TrackId) (h : ts.Nodup)
    (m : UMap ViewId (UMap TrackId Int)) (k : Nat) (t : TrackId) (hk : ts[k]? = some t) :
    findFeatureIndex (featureLoop v ts 0 m) v t = some (k : Int) := by
  have hmem : t ∈ ts := List.getElem?_mem hk
  obtain ⟨j, hj, hf⟩ := findFeatureIndex_featureLoop_mem v t ts 0 m hmem
  have := getElem?_inj_of_nodup h hj hk
  subst this
  simpa using hf

theorem find?_viewIndexLoop_not_mem (v : ViewId) :
    ∀ (ids : List ViewId) (m : UMap ViewId Int), v ∉ ids →
      UMap.find? (viewIndexLoop ids m) v = UMap.find? m v := by
  intro ids
  induction ids with
  | nil => intro m _; rfl
  | cons a rest ih =>
    intro m hmem
    simp only [List.mem_cons, not_or] at hmem
    simp only [viewIndexLoop]
    rw [ih _ hmem.2, UMap.find?_assign_ne _ _ (fun h => hmem.1 h.symm)]

theorem find?_viewIndexLoop_isSome (v : ViewId) :
    ∀ (ids : List ViewId) (m : UMap ViewId Int), v ∈ ids ∨ (UMap.find? m v).isSome →
      (UMap.find? (viewIndexLoop ids m) v).isSome := by
  intro ids
  induction ids with
  | nil => intro m h; simpa [viewIndexLoop] using h
  | cons a rest ih =>
    intro m h
    simp only [viewIndexLoop]
    apply ih
    by_cases hr : v ∈ rest
    · exact Or.inl hr
    · right
      by_cases ha : a = v
      · subst ha; simp [UMap.find?_assign_self]
      · rw [UMap.find?_assign_ne _ _ ha]
        rcases h with h | h
        · rcases List.mem_cons.mp h with h | h
          · exact absurd h.symm ha
          · exact absurd h hr
        · exact h

theorem find?_viewIndexLoop_nodup :
    ∀ (ids : List ViewId) (m : UMap ViewId Int), ids.Nodup →
      (∀ v ∈ ids, UMap.find? m v = none) →
      ∀ (k : Nat) (v : ViewId), ids[k]? = some v →
        UMap.find? (viewIndexLoop ids m) v = some ((UMap.size m + k : Nat) : Int) := by
  intro ids
  induction ids with
  | nil => intro m _ _ k v hk; simp at hk
  | cons a rest ih =>
    intro m hnd hnone k v hk
    have hnd' := List.nodup_cons.mp hnd
    simp only [viewIndexLoop]
    cases k with
    | zero =>
      simp only [List.getElem?_cons_zero, Option.some.injEq] at hk
      subst hk
      rw [find?_viewIndexLoop_not_mem _ _ _ hnd'.1, UMap.find?_assign_self]
      simp
    | succ k =>
      simp only [List.getElem?_cons_succ] at hk
      have hfresh : ∀ w ∈ rest, UMap.find? (UMap.assign m a (UMap.size m : Int)) w = none := by
        intro w hw
        have hne : a ≠ w := fun h => hnd'.1 (h ▸ hw)
        rw [UMap.find?_assign_ne _ _ hne]
        exact hnone w (List.mem_cons_of_mem _ hw)
      rw [ih _ hnd'.2 hfresh k v hk,
        UMap.size_assign_of_none _ _ _ (hnone a (List.mem_cons_self _ _))]
      congr 2
      omega

end IndexMaps

/-! ## The camera loop -/

section CameraLoop

variable {S : Type}

theorem View_of_mem (reconstruction : Reconstruction S) (v : ViewId)
    (h : v ∈ reconstruction.ViewIds) : ∃ view, reconstruction.View v = some view := by
  have := (UMap.find?_isSome_iff_mem reconstruction.views_ v).mpr h
  exact Option.isSome_iff_exists.mp this

theorem Track_of_mem (reconstruction : Reconstruction S) (t : TrackId)
    (h : t ∈ reconstruction.TrackIds) : ∃ track, reconstruction.Track t = some track := by
  have := (UMap.find?_isSome_iff_mem reconstruction.tracks_ t).mpr h
  exact Option.isSome_iff_exists.mp this

theorem mem_ViewIds_of_View (reconstruction : Reconstruction S) (v : ViewId) (view : View S)
    (h : reconstruction.View v = some view) : v ∈ reconstruction.ViewIds := by
  apply (UMap.find?_isSome_iff_mem reconstruction.views_ v).mp
  unfold Reconstruction.View at h
  simp [h]

theorem cameraLoop_ok (reconstruction : Reconstruction S) :
    ∀ (ids : List ViewId) (st : St S), (∀ v ∈ ids, v ∈ reconstruction.ViewIds) →
      cameraLoop reconstruction ids st = Step.ok
        { nvm_fh := st.nvm_fh ++ ids.flatMap (cameraRecordOf reconstruction)
          offset_fh := st.offset_fh ++ ids.flatMap (offsetRecordOf reconstruction)
          console := st.console ++
            (if st.printed_warning || ids.isEmpty then [] else [poseOnlyNotice])
          view_id_to_index := viewIndexLoop ids st.view_id_to_index
          feature_index_mapping := featureIndexLoop reconstruction ids st.feature_index_mapping
          printed_warning := st.printed_warning || !ids.isEmpty } := by
  intro ids
  induction ids with
  | nil =>
    intro st _
    cases st
    simp [cameraLoop, viewIndexLoop, featureIndexLoop]
  | cons a rest ih =>
    intro st h
    obtain ⟨view, hview⟩ := View_of_mem reconstruction a (h a (List.mem_cons_self _ _))
    have hrest : ∀ v ∈ rest, v ∈ reconstruction.ViewIds :=
      fun v hv => h v (List.mem_cons_of_mem _ hv)
    simp only [cameraLoop, cameraBody, hview]
    rw [ih _ hrest]
    cases hp : st.printed_warning <;>
      simp [hp, viewIndexLoop, featureIndexLoop, hview, cameraRecordOf, offsetRecordOf,
        List.flatMap_cons]

end CameraLoop

/-! ## The point loop -/

section PointLoop

variable {S : Type}

@[simp] theorem nvm_write_nvm_fh (st : St S) (a : List (Tok S)) :
    (st.nvm_write a).nvm_fh = st.nvm_fh ++ a := rfl

@[simp] theorem nvm_write_offset_fh (st : St S) (a : List (Tok S)) :
    (st.nvm_write a).offset_fh = st.offset_fh := rfl

@[simp] theorem nvm_write_console (st : St S) (a : List (Tok S)) :
    (st.nvm_write a).console = st.console := rfl

@[simp] theorem nvm_write_view_id_to_index (st : St S) (a : List (Tok S)) :
    (st.nvm_write a).view_id_to_index = st.view_id_to_index := rfl

@[simp] theorem nvm_write_feature_index_mapping (st : St S) (a : List (Tok S)) :
    (st.nvm_write a).feature_index_mapping = st.feature_index_mapping := rfl

@[simp] theorem nvm_write_printed_warning (st : St S) (a : List (Tok S)) :
    (st.nvm_write a).printed_warning = st.printed_warning := rfl

theorem nvm_write_nvm_write (st : St S) (a b : List (Tok S)) :
    (st.nvm_write a).nvm_write b = st.nvm_write (a ++ b) := by
  simp [St.nvm_write, List.append_assoc]

theorem nvm_write_nil (st : St S) : st.nvm_write [] = st := by
  cases st; simp [St.nvm_write]

variable [Sub S]

theorem observationBody_eq (reconstruction : Reconstruction S) (t : TrackId) (v : ViewId)
    (st : St S) :
    observationBody reconstruction t v st =
      match observationResult reconstruction st.view_id_to_index st.feature_index_mapping t v with
      | Except.ok g => Step.ok (st.nvm_write (renderGroup g))
      | Except.error f => Step.fault f st := by
  unfold observationBody observationResult findFeatureIndex
  cases h0 : reconstruction.View v with
  | none => rfl
  | some view =>
    cases h1 : view.GetFeature t with
    | none => simp [h1]
    | some raw =>
      cases h2 : UMap.find? st.feature_index_mapping v with
      | none => simp [h1, h2]
      | some inner =>
        cases h3 : UMap.find? inner t with
        | none => simp [h1, h2, h3]
        | some ti =>
          cases h4 : UMap.find? st.view_id_to_index v with
          | none => simp [h1, h2, h3, h4]
          | some vi => simp [h1, h2, h3, h4, renderGroup]

theorem groupOf_of_ok (reconstruction : Reconstruction S) (vmap : UMap ViewId Int)
    (fmap : UMap ViewId (UMap TrackId Int)) (t : TrackId) (v : ViewId)
    (g : Int × Int × Feature S)
    (h : observationResult reconstruction vmap fmap t v = Except.ok g) :
    groupOf reconstruction vmap fmap t v = renderGroup g := by
  simp [groupOf, h]

theorem observationLoop_cases (reconstruction : Reconstruction S) (t : TrackId) :
    ∀ (vs : List ViewId) (st : St S),
      ((∀ v ∈ vs, obsOk reconstruction st.view_id_to_index st.feature_index_mapping t v = true) ∧
        observationLoop reconstruction t vs st = Step.ok (st.nvm_write
          (vs.flatMap (groupOf reconstruction st.view_id_to_index st.feature_index_mapping t))))
      ∨ (∃ (j : Nat) (v : ViewId) (f : Fault), vs[j]? = some v ∧
          observationResult reconstruction st.view_id_to_index st.feature_index_mapping t v
            = Except.error f ∧
          (∀ w ∈ vs.take j,
            obsOk reconstruction st.view_id_to_index st.feature_index_mapping t w = true) ∧
          observationLoop reconstruction t vs st = Step.fault f (st.nvm_write
            ((vs.take j).flatMap
              (groupOf reconstruction st.view_id_to_index st.feature_index_mapping t)))) := by
  intro vs
  induction vs with
  | nil =>
    intro st
    left
    simp [observationLoop, nvm_write_nil]
  | cons a rest ih =>
    intro st
    cases hr : observationResult reconstruction st.view_id_to_index st.feature_index_mapping t a with
    | error f =>
      right
      refine ⟨0, a, f, by simp, hr, by simp, ?_⟩
      simp [observationLoop, observationBody_eq, hr, nvm_write_nil]
    | ok g =>
      have hg := groupOf_of_ok _ _ _ _ _ _ hr
      have hok : obsOk reconstruction st.view_id_to_index st.feature_index_mapping t a = true := by
        simp [obsOk, hr, Except.toBool]
      rcases ih (st.nvm_write (renderGroup g)) with ⟨hall, hloop⟩ | ⟨j, v, f, hj, hv, hall, hloop⟩
      · left
        constructor
        · intro v hv
          rcases List.mem_cons.mp hv with h | h
          · subst h; exact hok
          · simpa using hall v h
        · simp only [observationLoop, observationBody_eq, hr]
          rw [hloop, nvm_write_nvm_write]
          simp [List.flatMap_cons, hg]
      · right
        refine ⟨j + 1, v, f, by simpa using hj, by simpa using hv, ?_, ?_⟩
        · intro w hw
          simp only [List.take_succ_cons, List.mem_cons] at hw
          rcases hw with h | h
          · subst h; exact hok
          · simpa using hall w h
        · simp only [observationLoop, observationBody_eq, hr]
          rw [hloop, nvm_write_nvm_write]
          simp [List.flatMap_cons, hg]

end PointLoop

section TrackLoop

variable {S : Type} [Sub S] [Div S]

theorem trackLoop_cases (reconstruction : Reconstruction S) :
    ∀ (ts : List TrackId) (st : St S), (∀ t ∈ ts, t ∈ reconstruction.TrackIds) →
      ((∀ t ∈ ts, trackOk reconstruction st.view_id_to_index st.feature_index_mapping t = true) ∧
        trackLoop reconstruction ts st = Step.ok (st.nvm_write
          (ts.flatMap (pointRecordOf reconstruction st.view_id_to_index st.feature_index_mapping))))
      ∨ (∃ (k : Nat) (t : TrackId) (track : Track S) (j : Nat) (v : ViewId) (f : Fault),
          ts[k]? = some t ∧ reconstruction.Track t = some track ∧ track.ViewIds[j]? = some v ∧
          observationResult reconstruction st.view_id_to_index st.feature_index_mapping t v
            = Except.error f ∧
          (∀ t' ∈ ts.take k,
            trackOk reconstruction st.view_id_to_index st.feature_index_mapping t' = true) ∧
          (∀ w ∈ track.ViewIds.take j,
            obsOk reconstruction st.view_id_to_index st.feature_index_mapping t w = true) ∧
          trackLoop reconstruction ts st = Step.fault f (st.nvm_write
            ((ts.take k).flatMap
                (pointRecordOf reconstruction st.view_id_to_index st.feature_index_mapping)
              ++ (pointPrefix track ++ (track.ViewIds.take j).flatMap
                (groupOf reconstruction st.view_id_to_index st.feature_index_mapping t))))) := by
  intro ts
  induction ts with
  | nil =>
    intro st _
    left
    simp [trackLoop, nvm_write_nil]
  | cons a rest ih =>
    intro st hmem
    obtain ⟨track, htrack⟩ := Track_of_mem reconstruction a (hmem a (List.mem_cons_self _ _))
    have hrest : ∀ t ∈ rest, t ∈ reconstruction.TrackIds :=
      fun t ht => hmem t (List.mem_cons_of_mem _ ht)
    rcases observationLoop_cases reconstruction a track.ViewIds (st.nvm_write (pointPrefix track))
      with ⟨hall, hloop⟩ | ⟨j, v, f, hj, hv, hall, hloop⟩
    · have hok : trackOk reconstruction st.view_id_to_index st.feature_index_mapping a = true := by
        simp only [trackOk, htrack, List.all_eq_true]
        intro v hv
        simpa using hall v hv
      have hbody : trackBody reconstruction a st = Step.ok (st.nvm_write
          (pointRecordOf reconstruction st.view_id_to_index st.feature_index_mapping a)) := by
        simp only [trackBody, htrack, hloop, nvm_write_nvm_write]
        simp [pointRecordOf, htrack, List.append_assoc]
      rcases ih (st.nvm_write
          (pointRecordOf reconstruction st.view_id_to_index st.feature_index_mapping a)) hrest
        with ⟨hall', hloop'⟩ | ⟨k, t, track', j, v, f, hk, ht, hj, hv, hall1, hall2, hloop'⟩
      · left
        constructor
        · intro t ht
          rcases List.mem_cons.mp ht with h | h
          · subst h; exact hok
          · simpa using hall' t h
        · simp only [trackLoop, hbody]
          rw [hloop', nvm_write_nvm_write]
          simp [List.flatMap_cons]
      · right
        refine ⟨k + 1, t, track', j, v, f, by simpa using hk, ht, hj, by simpa using hv, ?_,
          by simpa using hall2, ?_⟩
        · intro t' ht'
          simp only [List.take_succ_cons, List.mem_cons] at ht'
          rcases ht' with h | h
          · subst h; exact hok
          · simpa using hall1 t' h
        · simp only [trackLoop, hbody]
          rw [hloop', nvm_write_nvm_write]
          simp [List.flatMap_cons, List.append_assoc]
    · right
      refine ⟨0, a, track, j, v, f, by simp, htrack, hj, by simpa using hv, by simp,
        by simpa using hall, ?_⟩
      simp only [trackLoop, trackBody, htrack, hloop, nvm_write_nvm_write]
      simp

end TrackLoop

/-! ## The whole call -/

section WholeCall

variable {S : Type}

theorem cameraPass_eq (reconstruction : Reconstruction S) (console : List Msg) :
    cameraPass reconstruction console = Step.ok
      { nvm_fh := cameraSection reconstruction
        offset_fh := reconstruction.ViewIds.flatMap (offsetRecordOf reconstruction)
        console := console ++ (if reconstruction.ViewIds.isEmpty then [] else [poseOnlyNotice])
        view_id_to_index := finalViewIndex reconstruction
        feature_index_mapping := finalFeatureIndex reconstruction
        printed_warning := !reconstruction.ViewIds.isEmpty } := by
  unfold cameraPass
  rw [cameraLoop_ok reconstruction _ _ (fun v hv => hv)]
  simp [initialState, cameraSection, finalViewIndex, finalFeatureIndex]

variable [Sub S] [Div S]

theorem WriteNVMFile_opened (is_open : String → Bool) (nvm_filepath : String)
    (reconstruction : Reconstruction S)
    (h : (WriteNVMFile is_open nvm_filepath reconstruction).outcome ≠ Outcome.returned false) :
    is_open nvm_filepath = true ∧ is_open (offset_path nvm_filepath) = true := by
  unfold WriteNVMFile at h
  cases h1 : is_open nvm_filepath with
  | false => simp [h1] at h
  | true =>
    cases h2 : is_open (offset_path nvm_filepath) with
    | false => simp [h1, h2] at h
    | true => simp

theorem WriteNVMFile_cases (is_open : String → Bool) (nvm_filepath : String)
    (reconstruction : Reconstruction S) (h1 : is_open nvm_filepath = true)
    (h2 : is_open (offset_path nvm_filepath) = true) :
    ((∀ t ∈ reconstruction.TrackIds, trackOk reconstruction (finalViewIndex reconstruction)
          (finalFeatureIndex reconstruction) t = true) ∧
      (WriteNVMFile is_open nvm_filepath reconstruction).outcome = Outcome.returned true ∧
      (WriteNVMFile is_open nvm_filepath reconstruction).nvm_file = some
        (cameraSection reconstruction
          ++ [Tok.int (reconstruction.TrackIds.length : Int), Tok.endl]
          ++ reconstruction.TrackIds.flatMap (pointRecordOf reconstruction
              (finalViewIndex reconstruction) (finalFeatureIndex reconstruction))
          ++ [Tok.str "0", Tok.endl]))
    ∨ (∃ (k : Nat) (t : TrackId) (track : Track S) (j : Nat) (v : ViewId) (f : Fault),
        reconstruction.TrackIds[k]? = some t ∧ reconstruction.Track t = some track ∧
        track.ViewIds[j]? = some v ∧
        observationResult reconstruction (finalViewIndex reconstruction)
          (finalFeatureIndex reconstruction) t v = Except.error f ∧
        (∀ t' ∈ reconstruction.TrackIds.take k, trackOk reconstruction
          (finalViewIndex reconstruction) (finalFeatureIndex reconstruction) t' = true) ∧
        (∀ w ∈ track.ViewIds.take j, obsOk reconstruction (finalViewIndex reconstruction)
          (finalFeatureIndex reconstruction) t w = true) ∧
        (WriteNVMFile is_open nvm_filepath reconstruction).outcome = Outcome.crashed f ∧
        (WriteNVMFile is_open nvm_filepath reconstruction).nvm_file = some
          (cameraSection reconstruction
            ++ [Tok.int (reconstruction.TrackIds.length : Int), Tok.endl]
            ++ (reconstruction.TrackIds.take k).flatMap (pointRecordOf reconstruction
                (finalViewIndex reconstruction) (finalFeatureIndex reconstruction))
            ++ (pointPrefix track ++ (track.ViewIds.take j).flatMap (groupOf reconstruction
                (finalViewIndex reconstruction) (finalFeatureIndex reconstruction) t)))) := by
  unfold WriteNVMFile
  simp only [h1, h2, Bool.not_true, Bool.false_eq_true, if_false, cameraPass_eq, pointPass]
  rcases trackLoop_cases reconstruction reconstruction.TrackIds
      (St.nvm_write
        { nvm_fh := cameraSection reconstruction
          offset_fh := reconstruction.ViewIds.flatMap (offsetRecordOf reconstruction)
          console := ([Msg.cout ("Writing nvm: " ++ nvm_filepath)] ++
              [Msg.cout ("Writing optical offsets: " ++ offset_path nvm_filepath)]) ++
            (if reconstruction.ViewIds.isEmpty then [] else [poseOnlyNotice])
          view_id_to_index := finalViewIndex reconstruction
          feature_index_mapping := finalFeatureIndex reconstruction
          printed_warning := !reconstruction.ViewIds.isEmpty }
        [Tok.int (reconstruction.TrackIds.length : Int), Tok.endl]) (fun t ht => ht)
    with ⟨hall, hloop⟩ | ⟨k, t, track, j, v, f, hk, ht, hj, hv, hall1, hall2, hloop⟩
  · left
    refine ⟨by simpa using hall, ?_⟩
    rw [hloop]
    simp [St.nvm_write, List.append_assoc]
  · right
    refine ⟨k, t, track, j, v, f, hk, ht, hj, by simpa using hv, by simpa using hall1,
      by simpa using hall2, ?_⟩
    rw [hloop]
    simp [crashResult, St.nvm_write, List.append_assoc]

end WholeCall

/-! ## Lines of a stream -/

section Lines

variable {S : Type}

theorem linesAux_append_endl (rest : List (Tok S)) :
    ∀ (body cur : List (Tok S)), Tok.endl ∉ body →
      linesAux (body ++ Tok.endl :: rest) cur = (cur ++ body) :: linesAux rest [] := by
  intro body
  induction body with
  | nil => intro cur _; simp [linesAux]
  | cons t body ih =>
    intro cur h
    simp only [List.mem_cons, not_or] at h
    cases t with
    | endl => exact absurd rfl h.1
    | str s => simp [linesAux, ih _ h.2]
    | real x => simp [linesAux, ih _ h.2]
    | int i => simp [linesAux, ih _ h.2]

theorem linesAux_no_endl :
    ∀ (body cur : List (Tok S)), Tok.endl ∉ body → cur ++ body ≠ [] →
      linesAux body cur = [cur ++ body] := by
  intro body
  induction body with
  | nil =>
    intro cur _ hne
    cases cur with
    | nil => simp at hne
    | cons c cur => simp [linesAux]
  | cons t body ih =>
    intro cur h _
    simp only [List.mem_cons, not_or] at h
    cases t with
    | endl => exact absurd rfl h.1
    | str s => simp [linesAux, ih _ h.2]
    | real x => simp [linesAux, ih _ h.2]
    | int i => simp [linesAux, ih _ h.2]

theorem linesAux_records {α : Type} (r body : α → List (Tok S)) (rest : List (Tok S)) :
    ∀ (xs : List α), (∀ x ∈ xs, r x = body x ++ [Tok.endl] ∧ Tok.endl ∉ body x) →
      linesAux (xs.flatMap r ++ rest) [] = xs.map body ++ linesAux rest [] := by
  intro xs
  induction xs with
  | nil => intro _; simp
  | cons x xs ih =>
    intro h
    have hx := h x (List.mem_cons_self _ _)
    have hxs : ∀ y ∈ xs, r y = body y ++ [Tok.endl] ∧ Tok.endl ∉ body y :=
      fun y hy => h y (List.mem_cons_of_mem _ hy)
    simp only [List.flatMap_cons, List.map_cons, List.cons_append]
    rw [hx.1]
    have : body x ++ [Tok.endl] ++ xs.flatMap r ++ rest
        = body x ++ Tok.endl :: (xs.flatMap r ++ rest) := by simp
    rw [this, linesAux_append_endl _ _ _ hx.2, ih hxs]
    simp

theorem endl_not_mem_cameraFields (view : View S) : Tok.endl ∉ cameraFields view := by
  simp only [cameraFields]
  split <;> simp

theorem endl_not_mem_observationGroup (vi ti : Int) (f : Feature S) :
    Tok.endl ∉ observationGroup vi ti f := by
  simp [observationGroup]

theorem endl_not_mem_pointPrefix [Div S] (track : Track S) : Tok.endl ∉ pointPrefix track := by
  simp [pointPrefix]

variable [Sub S]

theorem observationResult_ok (reconstruction : Reconstruction S) (vmap : UMap ViewId Int)
    (fmap : UMap ViewId (UMap TrackId Int)) (t : TrackId) (v : ViewId)
    (g : Int × Int × Feature S)
    (h : observationResult reconstruction vmap fmap t v = Except.ok g) :
    ∃ (view : View S) (raw : Feature S) (ti vi : Int),
      reconstruction.View v = some view ∧ view.GetFeature t = some raw ∧
      findFeatureIndex fmap v t = some ti ∧ UMap.find? vmap v = some vi ∧
      g = (vi, ti,
        raw - Feature.mk view.Camera.PrincipalPointX view.Camera.PrincipalPointY) := by
  unfold observationResult at h
  cases h0 : reconstruction.View v with
  | none => simp [h0] at h
  | some view =>
    cases h1 : view.GetFeature t with
    | none => simp [h0, h1] at h
    | some raw =>
      cases h2 : findFeatureIndex fmap v t with
      | none => simp [h0, h1, h2] at h
      | some ti =>
        cases h3 : UMap.find? vmap v with
        | none => simp [h0, h1, h2, h3] at h
        | some vi =>
          simp only [h0, h1, h2, h3, Except.ok.injEq] at h
          exact ⟨view, raw, ti, vi, rfl, h1, rfl, rfl, h.symm⟩

theorem obsOk_iff (reconstruction : Reconstruction S) (vmap : UMap ViewId Int)
    (fmap : UMap ViewId (UMap TrackId Int)) (t : TrackId) (v : ViewId) :
    obsOk reconstruction vmap fmap t v = true ↔
      ∃ g, observationResult reconstruction vmap fmap t v = Except.ok g := by
  unfold obsOk
  cases observationResult reconstruction vmap fmap t v <;> simp [Except.toBool]

theorem endl_not_mem_groupOf (reconstruction : Reconstruction S) (vmap : UMap ViewId Int)
    (fmap : UMap ViewId (UMap TrackId Int)) (t : TrackId) (v : ViewId) :
    Tok.endl ∉ groupOf reconstruction vmap fmap t v := by
  unfold groupOf
  cases h : observationResult reconstruction vmap fmap t v with
  | error f => simp
  | ok g =>
    simp only [renderGroup]
    exact endl_not_mem_observationGroup _ _ _

theorem endl_not_mem_groups (reconstruction : Reconstruction S) (vmap : UMap ViewId Int)
    (fmap : UMap ViewId (UMap TrackId Int)) (t : TrackId) (vs : List ViewId) :
    Tok.endl ∉ vs.flatMap (groupOf reconstruction vmap fmap t) := by
  intro h
  obtain ⟨v, -, hv⟩ := List.mem_flatMap.mp h
  exact endl_not_mem_groupOf _ _ _ _ _ hv

variable [Div S]

theorem endl_not_mem_pointLineOf (reconstruction : Reconstruction S) (vmap : UMap ViewId Int)
    (fmap : UMap ViewId (UMap TrackId Int)) (t : TrackId) :
    Tok.endl ∉ pointLineOf reconstruction vmap fmap t := by
  unfold pointLineOf
  cases reconstruction.Track t with
  | none => simp
  | some track =>
    simp only [List.mem_append, not_or]
    exact ⟨endl_not_mem_pointPrefix _, endl_not_mem_groups _ _ _ _ _⟩

theorem lines_sections (reconstruction : Reconstruction S) (vmap : UMap ViewId Int)
    (fmap : UMap ViewId (UMap TrackId Int)) (ts : List TrackId)
    (hts : ∀ t ∈ ts, t ∈ reconstruction.TrackIds) (rest : List (Tok S)) :
    lines (cameraSection reconstruction
        ++ [Tok.int (reconstruction.TrackIds.length : Int), Tok.endl]
        ++ ts.flatMap (pointRecordOf reconstruction vmap fmap) ++ rest)
      = [[Tok.str "NVM_V3 "], [], [Tok.int (reconstruction.ViewIds.length : Int)]]
        ++ reconstruction.ViewIds.map (cameraLineOf reconstruction)
        ++ [[Tok.int (reconstruction.TrackIds.length : Int)]]
        ++ ts.map (pointLineOf reconstruction vmap fmap)
        ++ linesAux rest [] := by
  have hcam : ∀ v ∈ reconstruction.ViewIds,
      cameraRecordOf reconstruction v = cameraLineOf reconstruction v ++ [Tok.endl] ∧
        Tok.endl ∉ cameraLineOf reconstruction v := by
    intro v hv
    obtain ⟨view, hview⟩ := View_of_mem reconstruction v hv
    simp only [cameraRecordOf, cameraLineOf, hview, cameraRecord, true_and]
    exact endl_not_mem_cameraFields view
  have hpt : ∀ t ∈ ts,
      pointRecordOf reconstruction vmap fmap t
          = pointLineOf reconstruction vmap fmap t ++ [Tok.endl] ∧
        Tok.endl ∉ pointLineOf reconstruction vmap fmap t := by
    intro t ht
    obtain ⟨track, htrack⟩ := Track_of_mem reconstruction t (hts t ht)
    refine ⟨?_, endl_not_mem_pointLineOf _ _ _ _⟩
    simp [pointRecordOf, pointLineOf, htrack]
  unfold lines cameraSection headerItems
  simp only [List.append_assoc, List.cons_append, List.nil_append]
  simp only [linesAux, List.nil_append]
  rw [linesAux_records _ _ _ _ hcam]
  simp only [linesAux, List.nil_append]
  rw [linesAux_records _ _ _ _ hpt]

end Lines

/-! ## The index maps at the end of the camera pass -/

section FinalMaps

variable {S : Type}

theorem find?_finalViewIndex_nodup (reconstruction : Reconstruction S)
    (h : reconstruction.ViewIds.Nodup) (k : Nat) (v : ViewId)
    (hk : reconstruction.ViewIds[k]? = some v) :
    UMap.find? (finalViewIndex reconstruction) v = some (k : Int) := by
  have := find?_viewIndexLoop_nodup reconstruction.ViewIds [] h
    (fun _ _ => rfl) k v hk
  simpa [finalViewIndex, UMap.size] using this

theorem mem_of_find?_finalViewIndex (reconstruction : Reconstruction S) (v : ViewId) (j : Int)
    (h : UMap.find? (finalViewIndex reconstruction) v = some j) :
    v ∈ reconstruction.ViewIds := by
  by_contra hv
  rw [finalViewIndex, find?_viewIndexLoop_not_mem v _ _ hv] at h
  simp [UMap.find?] at h

theorem find?_finalViewIndex_isSome (reconstruction : Reconstruction S) (v : ViewId)
    (h : v ∈ reconstruction.ViewIds) :
    (UMap.find? (finalViewIndex reconstruction) v).isSome :=
  find?_viewIndexLoop_isSome v _ _ (Or.inl h)

theorem featureIndexLoop_sound (reconstruction : Reconstruction S) (v : ViewId) (t : TrackId)
    (j : Int) :
    ∀ (ids : List ViewId) (m : UMap ViewId (UMap TrackId Int)),
      findFeatureIndex (featureIndexLoop reconstruction ids m) v t = some j →
      findFeatureIndex m v t = some j ∨
        ∃ (view : View S) (n : Nat), v ∈ ids ∧ reconstruction.View v = some view ∧
          view.TrackIds[n]? = some t ∧ j = (n : Int) := by
  intro ids
  induction ids with
  | nil => intro m h; exact Or.inl h
  | cons a rest ih =>
    intro m h
    cases ha : reconstruction.View a with
    | none =>
      simp only [featureIndexLoop, ha] at h
      exact Or.inl h
    | some view =>
      simp only [featureIndexLoop, ha] at h
      rcases ih _ h with h' | ⟨view', n, hmem, hview', hn, hj⟩
      · by_cases hva : v = a
        · subst hva
          by_cases ht : t ∈ view.TrackIds
          · obtain ⟨n, hn, hf⟩ := findFeatureIndex_featureLoop_mem v t view.TrackIds 0 m ht
            rw [hf] at h'
            right
            refine ⟨view, n, List.mem_cons_self _ _, ha, hn, ?_⟩
            simpa using h'.symm
          · rw [findFeatureIndex_featureLoop_not_mem v t _ _ _ ht] at h'
            exact Or.inl h'
        · rw [findFeatureIndex_featureLoop_other a v hva] at h'
          exact Or.inl h'
      · exact Or.inr ⟨view', n, List.mem_cons_of_mem _ hmem, hview', hn, hj⟩

theorem featureIndexLoop_complete (reconstruction : Reconstruction S) (v : ViewId)
    (view : View S) (hview : reconstruction.View v = some view) (t : TrackId) :
    ∀ (ids : List ViewId) (m : UMap ViewId (UMap TrackId Int)),
      (∀ a ∈ ids, a ∈ reconstruction.ViewIds) →
      ((v ∈ ids ∧ t ∈ view.TrackIds) ∨
        ∃ n : Nat, view.TrackIds[n]? = some t ∧ findFeatureIndex m v t = some (n : Int)) →
      ∃ n : Nat, view.TrackIds[n]? = some t ∧
        findFeatureIndex (featureIndexLoop reconstruction ids m) v t = some (n : Int) := by
  intro ids
  induction ids with
  | nil =>
    intro m _ h
    rcases h with ⟨h, _⟩ | h
    · simp at h
    · simpa [featureIndexLoop] using h
  | cons a rest ih =>
    intro m hres h
    obtain ⟨view', ha⟩ := View_of_mem reconstruction a (hres a (List.mem_cons_self _ _))
    have hrest : ∀ b ∈ rest, b ∈ reconstruction.ViewIds :=
      fun b hb => hres b (List.mem_cons_of_mem _ hb)
    simp only [featureIndexLoop, ha]
    apply ih _ hrest
    by_cases hva : v = a
    · subst hva
      have hvv : view' = view := by
        rw [hview] at ha
        exact (Option.some.inj ha).symm
      subst hvv
      have ht : t ∈ view'.TrackIds := by
        rcases h with ⟨_, ht⟩ | ⟨n, hn, _⟩
        · exact ht
        · exact List.getElem?_mem hn
      obtain ⟨n, hn, hf⟩ := findFeatureIndex_featureLoop_mem v t view'.TrackIds 0 m ht
      exact Or.inr ⟨n, hn, by simpa using hf⟩
    · rcases h with ⟨hmem, ht⟩ | ⟨n, hn, hf⟩
      · rcases List.mem_cons.mp hmem with h' | h'
        · exact absurd h' hva
        · exact Or.inl ⟨h', ht⟩
      · right
        refine ⟨n, hn, ?_⟩
        rw [findFeatureIndex_featureLoop_other a v hva]
        exact hf

theorem finalFeatureIndex_sound (reconstruction : Reconstruction S) (v : ViewId) (t : TrackId)
    (j : Int)
    (h : findFeatureIndex (finalFeatureIndex reconstruction) v t = some j) :
    ∃ (view : View S) (n : Nat), reconstruction.View v = some view ∧
      view.TrackIds[n]? = some t ∧ j = (n : Int) := by
  rcases featureIndexLoop_sound reconstruction v t j _ _ h with h' | ⟨view, n, _, hv, hn, hj⟩
  · simp [findFeatureIndex, UMap.find?] at h'
  · exact ⟨view, n, hv, hn, hj⟩

theorem finalFeatureIndex_complete (reconstruction : Reconstruction S) (v : ViewId)
    (view : View S) (hview : reconstruction.View v = some view) (t : TrackId)
    (ht : t ∈ view.TrackIds) :
    ∃ n : Nat, view.TrackIds[n]? = some t ∧
      findFeatureIndex (finalFeatureIndex reconstruction) v t = some (n : Int) :=
  featureIndexLoop_complete reconstruction v view hview t _ _ (fun _ h => h)
    (Or.inl ⟨mem_ViewIds_of_View reconstruction v view hview, ht⟩)

theorem finalFeatureIndex_nodup (reconstruction : Reconstruction S) (v : ViewId)
    (view : View S) (hview : reconstruction.View v = some view) (hnd : view.TrackIds.Nodup)
    (k : Nat) (t : TrackId) (hk : view.TrackIds[k]? = some t) :
    findFeatureIndex (finalFeatureIndex reconstruction) v t = some (k : Int) := by
  obtain ⟨n, hn, hf⟩ :=
    finalFeatureIndex_complete reconstruction v view hview t (List.getElem?_mem hk)
  have := getElem?_inj_of_nodup hnd hn hk
  subst this
  exact hf

end FinalMaps

/-! ## The shape of the primary output -/

section Shape

variable {S : Type}

theorem length_flatMap_renderGroup (groups : List (Int × Int × Feature S)) :
    (groups.flatMap renderGroup).length = 8 * groups.length := by
  induction groups with
  | nil => rfl
  | cons g rest ih =>
    rw [List.flatMap_cons, List.length_append, ih, List.length_cons]
    simp only [renderGroup, observationGroup, List.length_cons, List.length_nil]
    omega

theorem getElem?_after_three {α : Type} (A B R : List α) (hA : A.length = 3) (i : Nat)
    (hi : i < B.length) : (A ++ B ++ R)[3 + i]? = B[i]? := by
  rw [List.append_assoc, List.getElem?_append_right (by omega), hA,
    List.getElem?_append_left (by omega)]
  congr 1
  omega

theorem getElem?_after_four {α : Type} (A B C R : List α) (hA : A.length = 3)
    (hC : C.length = 1) (k : Nat) : (A ++ B ++ C ++ R)[4 + B.length + k]? = R[k]? := by
  rw [List.getElem?_append_right (by simp [hA, hC]; omega)]
  congr 1
  simp [hA, hC]
  omega

variable [Sub S]

theorem flatMap_groupOf (reconstruction : Reconstruction S) (vmap : UMap ViewId Int)
    (fmap : UMap ViewId (UMap TrackId Int)) (t : TrackId) :
    ∀ vs : List ViewId, vs.flatMap (groupOf reconstruction vmap fmap t)
      = (groupsOf reconstruction vmap fmap t vs).flatMap renderGroup := by
  intro vs
  induction vs with
  | nil => simp [groupsOf]
  | cons v vs ih =>
    simp only [List.flatMap_cons, groupsOf, groupOf]
    cases observationResult reconstruction vmap fmap t v with
    | error f => simpa using ih
    | ok g => simp [List.flatMap_cons, ih]

theorem groupsOf_of_ok (reconstruction : Reconstruction S) (vmap : UMap ViewId Int)
    (fmap : UMap ViewId (UMap TrackId Int)) (t : TrackId) :
    ∀ vs : List ViewId, (∀ w ∈ vs, obsOk reconstruction vmap fmap t w = true) →
      (groupsOf reconstruction vmap fmap t vs).length = vs.length ∧
      ∀ (j : Nat) (v : ViewId), vs[j]? = some v →
        ∃ g, observationResult reconstruction vmap fmap t v = Except.ok g ∧
          (groupsOf reconstruction vmap fmap t vs)[j]? = some g := by
  intro vs
  induction vs with
  | nil => intro _; simp [groupsOf]
  | cons a vs ih =>
    intro h
    obtain ⟨g, hg⟩ := (obsOk_iff _ _ _ _ _).mp (h a (List.mem_cons_self _ _))
    obtain ⟨hlen, hget⟩ := ih (fun w hw => h w (List.mem_cons_of_mem _ hw))
    constructor
    · simp [groupsOf, hg, hlen]
    · intro j v hj
      cases j with
      | zero =>
        simp only [List.getElem?_cons_zero, Option.some.injEq] at hj
        subst hj
        exact ⟨g, hg, by simp [groupsOf, hg]⟩
      | succ j =>
        simp only [List.getElem?_cons_succ] at hj
        obtain ⟨g', hg', hget'⟩ := hget j v hj
        exact ⟨g', hg', by simpa [groupsOf, hg] using hget'⟩

variable [Div S]

theorem lines_of_run (is_open : String → Bool) (nvm_filepath : String)
    (reconstruction : Reconstruction S) (h1 : is_open nvm_filepath = true)
    (h2 : is_open (offset_path nvm_filepath) = true) :
    ∃ (out : List (Tok S)) (K : Nat) (tail : List (List (Tok S))),
      (WriteNVMFile is_open nvm_filepath reconstruction).nvm_file = some out ∧
      lines out = [[Tok.str "NVM_V3 "], [], [Tok.int (reconstruction.ViewIds.length : Int)]]
        ++ reconstruction.ViewIds.map (cameraLineOf reconstruction)
        ++ [[Tok.int (reconstruction.TrackIds.length : Int)]]
        ++ ((reconstruction.TrackIds.take K).map (pointLineOf reconstruction
              (finalViewIndex reconstruction) (finalFeatureIndex reconstruction)) ++ tail) ∧
      (∀ t ∈ reconstruction.TrackIds.take K, trackOk reconstruction
        (finalViewIndex reconstruction) (finalFeatureIndex reconstruction) t = true) ∧
      (((WriteNVMFile is_open nvm_filepath reconstruction).outcome = Outcome.returned true ∧
          K = reconstruction.TrackIds.length ∧ tail = [[Tok.str "0"]])
        ∨ (∃ (f : Fault) (t : TrackId) (track : Track S) (J : Nat) (v : ViewId),
            (WriteNVMFile is_open nvm_filepath reconstruction).outcome = Outcome.crashed f ∧
            reconstruction.TrackIds[K]? = some t ∧ reconstruction.Track t = some track ∧
            track.ViewIds[J]? = some v ∧
            observationResult reconstruction (finalViewIndex reconstruction)
              (finalFeatureIndex reconstruction) t v = Except.error f ∧
            (∀ w ∈ track.ViewIds.take J, obsOk reconstruction (finalViewIndex reconstruction)
              (finalFeatureIndex reconstruction) t w = true) ∧
            tail = [pointPrefix track ++ (track.ViewIds.take J).flatMap (groupOf reconstruction
              (finalViewIndex reconstruction) (finalFeatureIndex reconstruction) t)])) := by
  rcases WriteNVMFile_cases is_open nvm_filepath reconstruction h1 h2 with
    ⟨hall, hout, hfile⟩ | ⟨k, t, track, j, v, f, hk, ht, hj, hv, hall1, hall2, hout, hfile⟩
  · refine ⟨_, reconstruction.TrackIds.length, [[Tok.str "0"]], hfile, ?_, ?_,
      Or.inl ⟨hout, rfl, rfl⟩⟩
    · rw [lines_sections reconstruction _ _ _ (fun t ht => ht)]
      simp [linesAux]
    · simpa using hall
  · refine ⟨_, k, _, hfile, ?_, hall1, Or.inr ⟨f, t, track, j, v, hout, hk, ht, hj, hv, hall2, rfl⟩⟩
    rw [lines_sections reconstruction _ _ _ (fun t ht => List.mem_of_mem_take ht)]
    rw [linesAux_no_endl]
    · simp
    · simp only [List.mem_append, not_or]
      exact ⟨endl_not_mem_pointPrefix _, endl_not_mem_groups _ _ _ _ _⟩
    · simp [pointPrefix]

end Shape

section Records

variable {S : Type} [Sub S]

theorem trackOk_iff (reconstruction : Reconstruction S) (vmap : UMap ViewId Int)
    (fmap : UMap ViewId (UMap TrackId Int)) (t : TrackId) :
    trackOk reconstruction vmap fmap t = true ↔
      ∃ track, reconstruction.Track t = some track ∧
        ∀ w ∈ track.ViewIds, obsOk reconstruction vmap fmap t w = true := by
  unfold trackOk
  cases reconstruction.Track t with
  | none => simp
  | some track => simp [List.all_eq_true]

variable [Div S]

theorem camera_line_of_run (is_open : String → Bool) (nvm_filepath : String)
    (reconstruction : Reconstruction S) (h1 : is_open nvm_filepath = true)
    (h2 : is_open (offset_path nvm_filepath) = true) :
    ∃ out : List (Tok S),
      (WriteNVMFile is_open nvm_filepath reconstruction).nvm_file = some out ∧
      ∀ (i : Nat) (v : ViewId), reconstruction.ViewIds[i]? = some v →
        ∃ view : View S, reconstruction.View v = some view ∧
          (lines out)[3 + i]? = some (cameraFields view) := by
  obtain ⟨out, K, tail, hfile, hlines, -, -⟩ :=
    lines_of_run is_open nvm_filepath reconstruction h1 h2
  refine ⟨out, hfile, ?_⟩
  intro i v hi
  obtain ⟨view, hview⟩ := View_of_mem reconstruction v (List.getElem?_mem hi)
  refine ⟨view, hview, ?_⟩
  have hlt : i < (reconstruction.ViewIds.map (cameraLineOf reconstruction)).length := by
    simpa using (List.getElem?_eq_some.mp hi).1
  have := getElem?_after_three [[Tok.str "NVM_V3 "], [],
      [Tok.int (reconstruction.ViewIds.length : Int)]]
    (reconstruction.ViewIds.map (cameraLineOf reconstruction))
    ([[Tok.int (reconstruction.TrackIds.length : Int)]]
      ++ ((reconstruction.TrackIds.take K).map (pointLineOf reconstruction
          (finalViewIndex reconstruction) (finalFeatureIndex reconstruction)) ++ tail))
    rfl i hlt
  rw [hlines]
  simp only [List.append_assoc] at this ⊢
  rw [this]
  simp [List.getElem?_map, hi, cameraLineOf, hview]

theorem point_line_of_run (is_open : String → Bool) (nvm_filepath : String)
    (reconstruction : Reconstruction S) (h1 : is_open nvm_filepath = true)
    (h2 : is_open (offset_path nvm_filepath) = true) :
    ∃ out : List (Tok S),
      (WriteNVMFile is_open nvm_filepath reconstruction).nvm_file = some out ∧
      ∀ (k : Nat) (t : TrackId) (line : List (Tok S)), reconstruction.TrackIds[k]? = some t →
        (lines out)[4 + reconstruction.ViewIds.length + k]? = some line →
        ∃ (track : Track S) (J : Nat), reconstruction.Track t = some track ∧
          J ≤ track.ViewIds.length ∧
          (∀ w ∈ track.ViewIds.take J, obsOk reconstruction (finalViewIndex reconstruction)
            (finalFeatureIndex reconstruction) t w = true) ∧
          line = pointPrefix track ++ (groupsOf reconstruction (finalViewIndex reconstruction)
            (finalFeatureIndex reconstruction) t (track.ViewIds.take J)).flatMap renderGroup ∧
          ((WriteNVMFile is_open nvm_filepath reconstruction).outcome = Outcome.returned true →
            J = track.ViewIds.length) := by
  obtain ⟨out, K, tail, hfile, hlines, hok, hcase⟩ :=
    lines_of_run is_open nvm_filepath reconstruction h1 h2
  refine ⟨out, hfile, ?_⟩
  intro k t line hk hline
  have hkm : k < reconstruction.TrackIds.length := (List.getElem?_eq_some.mp hk).1
  have hidx : (lines out)[4 + reconstruction.ViewIds.length + k]?
      = ((reconstruction.TrackIds.take K).map (pointLineOf reconstruction
          (finalViewIndex reconstruction) (finalFeatureIndex reconstruction)) ++ tail)[k]? := by
    rw [hlines]
    have := getElem?_after_four [[Tok.str "NVM_V3 "], [],
        [Tok.int (reconstruction.ViewIds.length : Int)]]
      (reconstruction.ViewIds.map (cameraLineOf reconstruction))
      [[Tok.int (reconstruction.TrackIds.length : Int)]]
      ((reconstruction.TrackIds.take K).map (pointLineOf reconstruction
          (finalViewIndex reconstruction) (finalFeatureIndex reconstruction)) ++ tail)
      rfl rfl k
    simpa using this
  rw [hidx] at hline
  by_cases hkK : k < K
  · -- a complete record
    have hlt : k < ((reconstruction.TrackIds.take K).map (pointLineOf reconstruction
        (finalViewIndex reconstruction) (finalFeatureIndex reconstruction))).length := by
      simp; omega
    rw [List.getElem?_append_left hlt, List.getElem?_map, List.getElem?_take_of_lt hkK, hk] at hline
    simp only [Option.map_some', Option.some.injEq] at hline
    have hmem : t ∈ reconstruction.TrackIds.take K := by
      apply List.getElem?_mem (n := k)
      rw [List.getElem?_take_of_lt hkK, hk]
    obtain ⟨track, htrack, hall⟩ := (trackOk_iff _ _ _ _).mp (hok t hmem)
    refine ⟨track, track.ViewIds.length, htrack, le_refl _, by simpa using hall, ?_, fun _ => rfl⟩
    rw [← hline]
    simp [pointLineOf, htrack, flatMap_groupOf]
  · rcases hcase with ⟨-, hK, -⟩ | ⟨f, t', track, J, v, hout, hK, htrack, hJ, -, hall, htail⟩
    · omega
    · have hKm : K < reconstruction.TrackIds.length := (List.getElem?_eq_some.mp hK).1
      have hlen : ((reconstruction.TrackIds.take K).map (pointLineOf reconstruction
          (finalViewIndex reconstruction) (finalFeatureIndex reconstruction))).length = K := by
        simp; omega
      rw [List.getElem?_append_right (by omega), hlen, htail] at hline
      have hkeq : k = K := by
        by_contra hne
        have : k - K = (k - K - 1) + 1 := by omega
        rw [this] at hline
        simp at hline
      subst hkeq
      rw [hk] at hK
      have := Option.some.inj hK
      subst this
      simp only [Nat.sub_self, List.getElem?_cons_zero, Option.some.injEq] at hline
      refine ⟨track, J, htrack, le_of_lt (List.getElem?_eq_some.mp hJ).1, hall, ?_, ?_⟩
      · rw [← hline, flatMap_groupOf]
      · intro hs
        rw [hout] at hs
        cases hs

theorem success_point_line (is_open : String → Bool) (nvm_filepath : String)
    (reconstruction : Reconstruction S)
    (hs : (WriteNVMFile is_open nvm_filepath reconstruction).outcome = Outcome.returned true) :
    ∃ out : List (Tok S),
      (WriteNVMFile is_open nvm_filepath reconstruction).nvm_file = some out ∧
      lines out = [[Tok.str "NVM_V3 "], [], [Tok.int (reconstruction.ViewIds.length : Int)]]
        ++ reconstruction.ViewIds.map (cameraLineOf reconstruction)
        ++ [[Tok.int (reconstruction.TrackIds.length : Int)]]
        ++ reconstruction.TrackIds.map (pointLineOf reconstruction
              (finalViewIndex reconstruction) (finalFeatureIndex reconstruction))
        ++ [[Tok.str "0"]] ∧
      ∀ (k : Nat) (t : TrackId), reconstruction.TrackIds[k]? = some t →
        ∃ track : Track S, reconstruction.Track t = some track ∧
          (∀ w ∈ track.ViewIds, obsOk reconstruction (finalViewIndex reconstruction)
            (finalFeatureIndex reconstruction) t w = true) ∧
          pointLineOf reconstruction (finalViewIndex reconstruction)
              (finalFeatureIndex reconstruction) t
            = pointPrefix track ++ (groupsOf reconstruction (finalViewIndex reconstruction)
                (finalFeatureIndex reconstruction) t track.ViewIds).flatMap renderGroup ∧
          (lines out)[4 + reconstruction.ViewIds.length + k]? = some (pointLineOf reconstruction
            (finalViewIndex reconstruction) (finalFeatureIndex reconstruction) t) := by
  have hopen := WriteNVMFile_opened is_open nvm_filepath reconstruction (by rw [hs]; simp)
  obtain ⟨out, K, tail, hfile, hlines, hok, hcase⟩ :=
    lines_of_run is_open nvm_filepath reconstruction hopen.1 hopen.2
  rcases hcase with ⟨-, hK, htail⟩ | ⟨f, _, _, _, _, hout, _⟩
  · subst hK htail
    simp only [List.take_length] at hlines hok
    refine ⟨out, hfile, by simpa [List.append_assoc] using hlines, ?_⟩
    intro k t hk
    obtain ⟨track, htrack, hall⟩ := (trackOk_iff _ _ _ _).mp (hok t (List.getElem?_mem hk))
    refine ⟨track, htrack, hall, by simp [pointLineOf, htrack, flatMap_groupOf], ?_⟩
    rw [hlines]
    have := getElem?_after_four [[Tok.str "NVM_V3 "], [],
        [Tok.int (reconstruction.ViewIds.length : Int)]]
      (reconstruction.ViewIds.map (cameraLineOf reconstruction))
      [[Tok.int (reconstruction.TrackIds.length : Int)]]
      (reconstruction.TrackIds.map (pointLineOf reconstruction
          (finalViewIndex reconstruction) (finalFeatureIndex reconstruction)) ++ [[Tok.str "0"]])
      rfl rfl k
    simp only [List.length_map] at this
    rw [this, List.getElem?_append_left (by simpa using (List.getElem?_eq_some.mp hk).1),
      List.getElem?_map, hk]
    rfl
  · rw [hout] at hs
    cases hs

end Records

section Crash

variable {S : Type} [Sub S]

theorem obsOk_false_of_not_mem (reconstruction : Reconstruction S) (t : TrackId) (v : ViewId)
    (view : View S) (hview : reconstruction.View v = some view) (hmiss : t ∉ view.TrackIds) :
    obsOk reconstruction (finalViewIndex reconstruction) (finalFeatureIndex reconstruction) t v
      = false := by
  cases hok : obsOk reconstruction (finalViewIndex reconstruction)
      (finalFeatureIndex reconstruction) t v with
  | false => rfl
  | true =>
    obtain ⟨g, hg⟩ := (obsOk_iff _ _ _ _ _).mp hok
    obtain ⟨view', raw, ti, vi, hv', -, hti, -, -⟩ := observationResult_ok _ _ _ _ _ _ hg
    obtain ⟨view'', n, hv'', hn, -⟩ := finalFeatureIndex_sound reconstruction v t ti hti
    rw [hview] at hv''
    have := Option.some.inj hv''
    subst this
    exact absurd (List.getElem?_mem hn) hmiss

theorem indexOf_of_getElem? {α : Type} [DecidableEq α] {l : List α} (h : l.Nodup) {i : Nat}
    {a : α} (hi : l[i]? = some a) : List.indexOf a l = i := by
  obtain ⟨hlt, ha⟩ := List.getElem?_eq_some.mp hi
  rw [← ha]
  exact List.indexOf_getElem h i hlt

variable [Div S]

theorem crash_last_item (is_open : String → Bool) (nvm_filepath : String)
    (reconstruction : Reconstruction S) (f : Fault)
    (hc : (WriteNVMFile is_open nvm_filepath reconstruction).outcome = Outcome.crashed f)
    (out : List (Tok S))
    (hout : (WriteNVMFile is_open nvm_filepath reconstruction).nvm_file = some out) :
    out.getLast? ≠ some Tok.endl := by
  have hopen := WriteNVMFile_opened is_open nvm_filepath reconstruction (by rw [hc]; simp)
  rcases WriteNVMFile_cases is_open nvm_filepath reconstruction hopen.1 hopen.2 with
    ⟨-, hs, -⟩ | ⟨k, t, track, j, v, f', -, -, -, -, -, -, -, hfile⟩
  · rw [hs] at hc
    cases hc
  · rw [hfile] at hout
    have := Option.some.inj hout
    subst this
    intro hlast
    rw [List.getLast?_append_of_ne_nil _ (by simp [pointPrefix])] at hlast
    have hmem := List.mem_of_getLast?_eq_some hlast
    simp only [List.mem_append] at hmem
    rcases hmem with h | h
    · exact endl_not_mem_pointPrefix _ h
    · exact endl_not_mem_groups _ _ _ _ _ h

end Crash

section ClaimsOnRecords

variable {S : Type} [Sub S] [Div S]

/-- C4: when `WriteNVMFile` returns `true`, the third line of the primary output
holds the number of view ids and is followed by exactly that many camera
records, the `i`-th being the record of the `i`-th view; the next line holds the
number of track ids and is followed by exactly that many point records, the
`k`-th being the record of the `k`-th track; the terminator line comes next. -/
theorem counts_match_records (is_open : String → Bool) (nvm_filepath : String)
    (reconstruction : Reconstruction S)
    (hs : (WriteNVMFile is_open nvm_filepath reconstruction).outcome = Outcome.returned true) :
    ∃ (out : List (Tok S)) (camera_records point_records : List (List (Tok S))),
      (WriteNVMFile is_open nvm_filepath reconstruction).nvm_file = some out ∧
      lines out = [[Tok.str "NVM_V3 "], [], [Tok.int (reconstruction.ViewIds.length : Int)]]
        ++ camera_records ++ [[Tok.int (reconstruction.TrackIds.length : Int)]]
        ++ point_records ++ [[Tok.str "0"]] ∧
      camera_records.length = reconstruction.ViewIds.length ∧
      point_records.length = reconstruction.TrackIds.length ∧
      (∀ (i : Nat) (v : ViewId), reconstruction.ViewIds[i]? = some v →
        ∃ view : View S, reconstruction.View v = some view ∧
          camera_records[i]? = some (cameraFields view)) ∧
      (∀ (k : Nat) (t : TrackId), reconstruction.TrackIds[k]? = some t →
        ∃ (track : Track S) (groups : List (Int × Int × Feature S)),
          reconstruction.Track t = some track ∧
          point_records[k]? = some (pointPrefix track ++ groups.flatMap renderGroup)) := by
  obtain ⟨out, hfile, hlines, hpt⟩ := success_point_line is_open nvm_filepath reconstruction hs
  refine ⟨out, reconstruction.ViewIds.map (cameraLineOf reconstruction),
    reconstruction.TrackIds.map (pointLineOf reconstruction (finalViewIndex reconstruction)
      (finalFeatureIndex reconstruction)), hfile, hlines, by simp, by simp, ?_, ?_⟩
  · intro i v hi
    obtain ⟨view, hview⟩ := View_of_mem reconstruction v (List.getElem?_mem hi)
    exact ⟨view, hview, by simp [List.getElem?_map, hi, cameraLineOf, hview]⟩
  · intro k t hk
    obtain ⟨track, htrack, -, hline, -⟩ := hpt k t hk
    exact ⟨track, groupsOf reconstruction (finalViewIndex reconstruction)
      (finalFeatureIndex reconstruction) t track.ViewIds, htrack,
      by simp [List.getElem?_map, hk, hline]⟩

theorem counts_match_records_witness :
    (WriteNVMFile (fun _ => true) "x.nvm" exampleReconstruction).outcome = Outcome.returned true ∧
    ∃ (out : List (Tok Int)) (camera_records point_records : List (List (Tok Int))),
      (WriteNVMFile (fun _ => true) "x.nvm" exampleReconstruction).nvm_file = some out ∧
      lines out = [[Tok.str "NVM_V3 "], [], [Tok.int (exampleReconstruction.ViewIds.length : Int)]]
        ++ camera_records ++ [[Tok.int (exampleReconstruction.TrackIds.length : Int)]]
        ++ point_records ++ [[Tok.str "0"]] ∧
      camera_records.length = exampleReconstruction.ViewIds.length ∧
      point_records.length = exampleReconstruction.TrackIds.length ∧
      (∀ (i : Nat) (v : ViewId), exampleReconstruction.ViewIds[i]? = some v →
        ∃ view : View Int, exampleReconstruction.View v = some view ∧
          camera_records[i]? = some (cameraFields view)) ∧
      (∀ (k : Nat) (t : TrackId), exampleReconstruction.TrackIds[k]? = some t →
        ∃ (track : Track Int) (groups : List (Int × Int × Feature Int)),
          exampleReconstruction.Track t = some track ∧
          point_records[k]? = some (pointPrefix track ++ groups.flatMap renderGroup)) :=
  ⟨by decide, counts_match_records (fun _ => true) "x.nvm" exampleReconstruction (by decide)⟩

/-- C5: when `WriteNVMFile` returns `true`, the point record of every track is
exactly the seven leading fields, the seventh, `num_observations`, being the
value of `track->NumViews()`, followed by one group of four fields for each
view of the track's view list and by nothing else: a record over `n` groups
has `14 + 8 * n` items, separators included.  With `NumViews` the number of
views observing the track, the `num_observations` field is the number of the
groups that follow it on the line. -/
theorem num_observations_counts_groups (is_open : String → Bool) (nvm_filepath : String)
    (reconstruction : Reconstruction S)
    (hs : (WriteNVMFile is_open nvm_filepath reconstruction).outcome = Outcome.returned true) :
    ∃ out : List (Tok S),
      (WriteNVMFile is_open nvm_filepath reconstruction).nvm_file = some out ∧
      ∀ (k : Nat) (t : TrackId), reconstruction.TrackIds[k]? = some t →
        ∃ (track : Track S) (record : List (Tok S)) (groups : List (Int × Int × Feature S)),
          reconstruction.Track t = some track ∧
          (lines out)[4 + reconstruction.ViewIds.length + k]? = some record ∧
          record =
            [Tok.real (track.Point.x / track.Point.w), Tok.str " ",
             Tok.real (track.Point.y / track.Point.w), Tok.str " ",
             Tok.real (track.Point.z / track.Point.w), Tok.str " ",
             Tok.int track.Color.x, Tok.str " ", Tok.int track.Color.y, Tok.str " ",
             Tok.int track.Color.z, Tok.str " ", Tok.int track.NumViews, Tok.str " "]
            ++ groups.flatMap (fun g =>
                [Tok.int g.1, Tok.str " ", Tok.int g.2.1, Tok.str " ", Tok.real g.2.2.x,
                 Tok.str " ", Tok.real g.2.2.y, Tok.str " "]) ∧
          groups.length = track.ViewIds.length ∧
          record.length = 14 + 8 * groups.length ∧
          track.NumViews = (groups.length : Int) ∧
          record[12]? = some (Tok.int (groups.length : Int)) := by
  obtain ⟨out, hfile, -, hpt⟩ := success_point_line is_open nvm_filepath reconstruction hs
  refine ⟨out, hfile, ?_⟩
  intro k t hk
  obtain ⟨track, htrack, hall, hline, hget⟩ := hpt k t hk
  have hlen := (groupsOf_of_ok reconstruction (finalViewIndex reconstruction)
    (finalFeatureIndex reconstruction) t track.ViewIds hall).1
  refine ⟨track, _, _, htrack, hget, hline, hlen, ?_, ?_, ?_⟩
  · rw [hline, List.length_append, length_flatMap_renderGroup]
    simp [pointPrefix]
  · simp [Track.NumViews, hlen]
  · rw [hline, List.getElem?_append_left (by simp [pointPrefix])]
    simp [pointPrefix, Track.NumViews, hlen]

theorem num_observations_counts_groups_witness :
    (WriteNVMFile (fun _ => true) "x.nvm" exampleReconstruction).outcome = Outcome.returned true ∧
    ∃ out : List (Tok Int),
      (WriteNVMFile (fun _ => true) "x.nvm" exampleReconstruction).nvm_file = some out ∧
      ∀ (k : Nat) (t : TrackId), exampleReconstruction.TrackIds[k]? = some t →
        ∃ (track : Track Int) (record : List (Tok Int)) (groups : List (Int × Int × Feature Int)),
          exampleReconstruction.Track t = some track ∧
          (lines out)[4 + exampleReconstruction.ViewIds.length + k]? = some record ∧
          record =
            [Tok.real (track.Point.x / track.Point.w), Tok.str " ",
             Tok.real (track.Point.y / track.Point.w), Tok.str " ",
             Tok.real (track.Point.z / track.Point.w), Tok.str " ",
             Tok.int track.Color.x, Tok.str " ", Tok.int track.Color.y, Tok.str " ",
             Tok.int track.Color.z, Tok.str " ", Tok.int track.NumViews, Tok.str " "]
            ++ groups.flatMap (fun g =>
                [Tok.int g.1, Tok.str " ", Tok.int g.2.1, Tok.str " ", Tok.real g.2.2.x,
                 Tok.str " ", Tok.real g.2.2.y, Tok.str " "]) ∧
          groups.length = track.ViewIds.length ∧
          record.length = 14 + 8 * groups.length ∧
          track.NumViews = (groups.length : Int) ∧
          record[12]? = some (Tok.int (groups.length : Int)) :=
  ⟨by decide,
    num_observations_counts_groups (fun _ => true) "x.nvm" exampleReconstruction (by decide)⟩

end ClaimsOnRecords

section ClaimsOnObservations

variable {S : Type} [Sub S] [Div S]

/-- C1: when the view ids are pairwise distinct, every stored view has a
duplicate-free track list and `WriteNVMFile` returns `true`, the point record of
each track is exactly its seven leading fields followed by one observation
group `view_idx feat_idx fx fy` per view of the track's view list, in that
order; the group of view `v` carries as `view_idx` the position of `v` among
the view ids, which is the position among the camera records of the record
that starts with the name of `v`, and as `feat_idx` the position of the track
in the track list of `v`. -/
theorem observation_group_indices (is_open : String → Bool) (nvm_filepath : String)
    (reconstruction : Reconstruction S) (hv : reconstruction.ViewIds.Nodup)
    (ht : ∀ p ∈ reconstruction.views_, p.2.TrackIds.Nodup)
    (hs : (WriteNVMFile is_open nvm_filepath reconstruction).outcome = Outcome.returned true) :
    ∃ out : List (Tok S),
      (WriteNVMFile is_open nvm_filepath reconstruction).nvm_file = some out ∧
      ∀ (k : Nat) (t : TrackId), reconstruction.TrackIds[k]? = some t →
        ∃ (track : Track S) (groups : List (Int × Int × Feature S)),
          reconstruction.Track t = some track ∧
          (lines out)[4 + reconstruction.ViewIds.length + k]? = some (
            [Tok.real (track.Point.x / track.Point.w), Tok.str " ",
             Tok.real (track.Point.y / track.Point.w), Tok.str " ",
             Tok.real (track.Point.z / track.Point.w), Tok.str " ",
             Tok.int track.Color.x, Tok.str " ", Tok.int track.Color.y, Tok.str " ",
             Tok.int track.Color.z, Tok.str " ", Tok.int track.NumViews, Tok.str " "]
            ++ groups.flatMap (fun g =>
                [Tok.int g.1, Tok.str " ", Tok.int g.2.1, Tok.str " ", Tok.real g.2.2.x,
                 Tok.str " ", Tok.real g.2.2.y, Tok.str " "])) ∧
          groups.length = track.ViewIds.length ∧
          ∀ (j : Nat) (v : ViewId), track.ViewIds[j]? = some v →
            ∃ (view : View S) (view_idx feat_idx : Nat) (feature : Feature S)
                (camera_record : List (Tok S)),
              groups[j]? = some ((view_idx : Int), (feat_idx : Int), feature) ∧
              reconstruction.View v = some view ∧
              view_idx = List.indexOf v reconstruction.ViewIds ∧
              reconstruction.ViewIds[view_idx]? = some v ∧
              (lines out)[3 + view_idx]? = some camera_record ∧
              camera_record = cameraFields view ∧
              camera_record[0]? = some (Tok.str view.Name) ∧
              camera_record.length = 20 ∧
              feat_idx = List.indexOf t view.TrackIds ∧
              view.TrackIds[feat_idx]? = some t := by
  have hopen := WriteNVMFile_opened is_open nvm_filepath reconstruction (by rw [hs]; simp)
  obtain ⟨out, hfile, -, hpt⟩ := success_point_line is_open nvm_filepath reconstruction hs
  obtain ⟨out', hfile', hcam⟩ :=
    camera_line_of_run is_open nvm_filepath reconstruction hopen.1 hopen.2
  have hoo : out' = out := by
    rw [hfile] at hfile'
    exact (Option.some.inj hfile').symm
  subst hoo
  refine ⟨out', hfile, ?_⟩
  intro k t hk
  obtain ⟨track, htrack, hall, hline, hget⟩ := hpt k t hk
  obtain ⟨hlen, hgroups⟩ := groupsOf_of_ok reconstruction (finalViewIndex reconstruction)
    (finalFeatureIndex reconstruction) t track.ViewIds hall
  have hrecord : (lines out')[4 + reconstruction.ViewIds.length + k]?
      = some (pointPrefix track ++ (groupsOf reconstruction (finalViewIndex reconstruction)
          (finalFeatureIndex reconstruction) t track.ViewIds).flatMap renderGroup) := by
    rw [hget, hline]
  refine ⟨track, _, htrack, hrecord, hlen, ?_⟩
  intro j v hj
  obtain ⟨g, hg, hgj⟩ := hgroups j v hj
  obtain ⟨view, raw, ti, vi, hview, -, hti, hvi, hgeq⟩ := observationResult_ok _ _ _ _ _ _ hg
  obtain ⟨i, hi⟩ := List.mem_iff_getElem?.mp (mem_of_find?_finalViewIndex reconstruction v vi hvi)
  have hvi' := find?_finalViewIndex_nodup reconstruction hv i v hi
  rw [hvi] at hvi'
  have hvieq : vi = (i : Int) := Option.some.inj hvi'
  obtain ⟨view', n, hview', hn, htin⟩ := finalFeatureIndex_sound reconstruction v t ti hti
  rw [hview] at hview'
  have hvv := Option.some.inj hview'
  subst hvv
  have hnd : view.TrackIds.Nodup :=
    ht (v, view) (UMap.find?_mem reconstruction.views_ v view hview)
  obtain ⟨view'', hview'', hcamline⟩ := hcam i v hi
  rw [hview] at hview''
  have hvv := Option.some.inj hview''
  subst hvv
  refine ⟨view, i, n,
    raw - Feature.mk view.Camera.PrincipalPointX view.Camera.PrincipalPointY, _, ?_, hview,
    (indexOf_of_getElem? hv hi).symm, hi, hcamline, rfl, ?_, ?_,
    (indexOf_of_getElem? hnd hn).symm, hn⟩
  · rw [hgj, hgeq, hvieq, htin]
  · simp [cameraFields]
  · simp only [cameraFields]
    split <;> simp

theorem observation_group_indices_witness :
    exampleReconstruction.ViewIds.Nodup ∧
    (∀ p ∈ exampleReconstruction.views_, p.2.TrackIds.Nodup) ∧
    (WriteNVMFile (fun _ => true) "x.nvm" exampleReconstruction).outcome = Outcome.returned true ∧
    ∃ out : List (Tok Int),
      (WriteNVMFile (fun _ => true) "x.nvm" exampleReconstruction).nvm_file = some out ∧
      ∀ (k : Nat) (t : TrackId), exampleReconstruction.TrackIds[k]? = some t →
        ∃ (track : Track Int) (groups : List (Int × Int × Feature Int)),
          exampleReconstruction.Track t = some track ∧
          (lines out)[4 + exampleReconstruction.ViewIds.length + k]? = some (
            [Tok.real (track.Point.x / track.Point.w), Tok.str " ",
             Tok.real (track.Point.y / track.Point.w), Tok.str " ",
             Tok.real (track.Point.z / track.Point.w), Tok.str " ",
             Tok.int track.Color.x, Tok.str " ", Tok.int track.Color.y, Tok.str " ",
             Tok.int track.Color.z, Tok.str " ", Tok.int track.NumViews, Tok.str " "]
            ++ groups.flatMap (fun g =>
                [Tok.int g.1, Tok.str " ", Tok.int g.2.1, Tok.str " ", Tok.real g.2.2.x,
                 Tok.str " ", Tok.real g.2.2.y, Tok.str " "])) ∧
          groups.length = track.ViewIds.length ∧
          ∀ (j : Nat) (v : ViewId), track.ViewIds[j]? = some v →
            ∃ (view : View Int) (view_idx feat_idx : Nat) (feature : Feature Int)
                (camera_record : List (Tok Int)),
              groups[j]? = some ((view_idx : Int), (feat_idx : Int), feature) ∧
              exampleReconstruction.View v = some view ∧
              view_idx = List.indexOf v exampleReconstruction.ViewIds ∧
              exampleReconstruction.ViewIds[view_idx]? = some v ∧
              (lines out)[3 + view_idx]? = some camera_record ∧
              camera_record = cameraFields view ∧
              camera_record[0]? = some (Tok.str view.Name) ∧
              camera_record.length = 20 ∧
              feat_idx = List.indexOf t view.TrackIds ∧
              view.TrackIds[feat_idx]? = some t :=
  ⟨by decide, by decide, by decide,
    observation_group_indices (fun _ => true) "x.nvm" exampleReconstruction
      (by decide) (by decide) (by decide)⟩

/-- The point record of track 3 in the worked example: two groups, `view_idx`
0 and 1, `feat_idx` 0 in both, features `(10,10)` and `(20,20)` unchanged. -/
theorem example_point_record :
    (WriteNVMFile (fun _ => true) "x.nvm" exampleReconstruction).nvm_file.bind
        (fun out => (lines out)[6]?)
      = some ([Tok.real 1, Tok.str " ", Tok.real 2, Tok.str " ", Tok.real 3, Tok.str " ",
          Tok.int 255, Tok.str " ", Tok.int 0, Tok.str " ", Tok.int 0, Tok.str " ",
          Tok.int 2, Tok.str " ",
          Tok.int 0, Tok.str " ", Tok.int 0, Tok.str " ", Tok.real 10, Tok.str " ",
          Tok.real 10, Tok.str " ",
          Tok.int 1, Tok.str " ", Tok.int 0, Tok.str " ", Tok.real 20, Tok.str " ",
          Tok.real 20, Tok.str " "]) := by
  decide

/-- The point record of track 3 when the camera of view 5 has principal point
`(3, 4)`: the feature `(10, 10)` of view 5 is written as `(7, 6)`, the feature
`(20, 20)` of view 9, whose principal point is `(0, 0)`, unchanged. -/
theorem shifted_point_record :
    (WriteNVMFile (fun _ => true) "x.nvm" shiftedReconstruction).nvm_file.bind
        (fun out => (lines out)[6]?)
      = some ([Tok.real 1, Tok.str " ", Tok.real 2, Tok.str " ", Tok.real 3, Tok.str " ",
          Tok.int 255, Tok.str " ", Tok.int 0, Tok.str " ", Tok.int 0, Tok.str " ",
          Tok.int 2, Tok.str " ",
          Tok.int 0, Tok.str " ", Tok.int 0, Tok.str " ", Tok.real 7, Tok.str " ",
          Tok.real 6, Tok.str " ",
          Tok.int 1, Tok.str " ", Tok.int 0, Tok.str " ", Tok.real 20, Tok.str " ",
          Tok.real 20, Tok.str " "]) := by
  decide

/-- C6: when `WriteNVMFile` returns `true`, the point record of every track is
exactly its seven leading fields followed by one group per view of the track's
view list, in that order, and the group of view `v` carries as `(fx, fy)` the
raw feature of `v` for the track minus the principal point of the camera of
`v`, componentwise; when that principal point is `(zero, zero)` for a `zero`
with `x - zero = x`, the raw feature is written unchanged.  In every run,
finished or not, each pass of the observation loop whose lookups succeed
appends to the stream exactly the group with these two differences. -/
theorem feature_minus_principal_point (is_open : String → Bool) (nvm_filepath : String)
    (reconstruction : Reconstruction S)
    (hs : (WriteNVMFile is_open nvm_filepath reconstruction).outcome = Outcome.returned true) :
    (∃ out : List (Tok S),
      (WriteNVMFile is_open nvm_filepath reconstruction).nvm_file = some out ∧
      ∀ (k : Nat) (t : TrackId), reconstruction.TrackIds[k]? = some t →
        ∃ (track : Track S) (groups : List (Int × Int × Feature S)),
          reconstruction.Track t = some track ∧
          (lines out)[4 + reconstruction.ViewIds.length + k]? = some (
            [Tok.real (track.Point.x / track.Point.w), Tok.str " ",
             Tok.real (track.Point.y / track.Point.w), Tok.str " ",
             Tok.real (track.Point.z / track.Point.w), Tok.str " ",
             Tok.int track.Color.x, Tok.str " ", Tok.int track.Color.y, Tok.str " ",
             Tok.int track.Color.z, Tok.str " ", Tok.int track.NumViews, Tok.str " "]
            ++ groups.flatMap (fun g =>
                [Tok.int g.1, Tok.str " ", Tok.int g.2.1, Tok.str " ", Tok.real g.2.2.x,
                 Tok.str " ", Tok.real g.2.2.y, Tok.str " "])) ∧
          groups.length = track.ViewIds.length ∧
          ∀ (j : Nat) (v : ViewId), track.ViewIds[j]? = some v →
            ∃ (view : View S) (raw : Feature S) (view_index track_index : Int),
              reconstruction.View v = some view ∧
              view.GetFeature t = some raw ∧
              groups[j]? = some (view_index, track_index,
                Feature.mk (raw.x - view.Camera.PrincipalPointX)
                  (raw.y - view.Camera.PrincipalPointY)) ∧
              ∀ zero : S, (∀ x : S, x - zero = x) →
                view.Camera.PrincipalPointX = zero → view.Camera.PrincipalPointY = zero →
                groups[j]? = some (view_index, track_index, raw)) ∧
    (∀ (track_id : TrackId) (view_id : ViewId) (st : St S) (view : View S) (raw : Feature S)
        (view_features : UMap TrackId Int) (track_index view_index : Int),
      reconstruction.View view_id = some view →
      view.GetFeature track_id = some raw →
      UMap.find? st.feature_index_mapping view_id = some view_features →
      UMap.find? view_features track_id = some track_index →
      UMap.find? st.view_id_to_index view_id = some view_index →
      observationBody reconstruction track_id view_id st =
        Step.ok { st with
          nvm_fh := st.nvm_fh ++
            [Tok.int view_index, Tok.str " ", Tok.int track_index, Tok.str " ",
             Tok.real (raw.x - view.Camera.PrincipalPointX), Tok.str " ",
             Tok.real (raw.y - view.Camera.PrincipalPointY), Tok.str " "] }) := by
  constructor
  · obtain ⟨out, hfile, -, hpt⟩ := success_point_line is_open nvm_filepath reconstruction hs
    refine ⟨out, hfile, ?_⟩
    intro k t hk
    obtain ⟨track, htrack, hall, hline, hget⟩ := hpt k t hk
    obtain ⟨hlen, hgroups⟩ := groupsOf_of_ok reconstruction (finalViewIndex reconstruction)
      (finalFeatureIndex reconstruction) t track.ViewIds hall
    have hrecord : (lines out)[4 + reconstruction.ViewIds.length + k]?
        = some (pointPrefix track ++ (groupsOf reconstruction (finalViewIndex reconstruction)
            (finalFeatureIndex reconstruction) t track.ViewIds).flatMap renderGroup) := by
      rw [hget, hline]
    refine ⟨track, _, htrack, hrecord, hlen, ?_⟩
    intro j v hj
    obtain ⟨g, hg, hgj⟩ := hgroups j v hj
    obtain ⟨view, raw, ti, vi, hview, hraw, -, -, hgeq⟩ := observationResult_ok _ _ _ _ _ _ hg
    have hshift : (groupsOf reconstruction (finalViewIndex reconstruction)
        (finalFeatureIndex reconstruction) t track.ViewIds)[j]?
        = some (vi, ti, Feature.mk (raw.x - view.Camera.PrincipalPointX)
            (raw.y - view.Camera.PrincipalPointY)) := by
      rw [hgj, hgeq]
      rfl
    refine ⟨view, raw, vi, ti, hview, hraw, hshift, ?_⟩
    intro zero hz hx hy
    rw [hshift, hx, hy, hz, hz]
  · intro track_id view_id st view raw view_features track_index view_index h0 h1 h2 h3 h4
    unfold observationBody
    simp only [h0, h1, h2, h3, h4]
    rfl

theorem feature_minus_principal_point_witness :
    (WriteNVMFile (fun _ => true) "x.nvm" shiftedReconstruction).outcome = Outcome.returned true ∧
    (∃ out : List (Tok Int),
      (WriteNVMFile (fun _ => true) "x.nvm" shiftedReconstruction).nvm_file = some out ∧
      ∀ (k : Nat) (t : TrackId), shiftedReconstruction.TrackIds[k]? = some t →
        ∃ (track : Track Int) (groups : List (Int × Int × Feature Int)),
          shiftedReconstruction.Track t = some track ∧
          (lines out)[4 + shiftedReconstruction.ViewIds.length + k]? = some (
            [Tok.real (track.Point.x / track.Point.w), Tok.str " ",
             Tok.real (track.Point.y / track.Point.w), Tok.str " ",
             Tok.real (track.Point.z / track.Point.w), Tok.str " ",
             Tok.int track.Color.x, Tok.str " ", Tok.int track.Color.y, Tok.str " ",
             Tok.int track.Color.z, Tok.str " ", Tok.int track.NumViews, Tok.str " "]
            ++ groups.flatMap (fun g =>
                [Tok.int g.1, Tok.str " ", Tok.int g.2.1, Tok.str " ", Tok.real g.2.2.x,
                 Tok.str " ", Tok.real g.2.2.y, Tok.str " "])) ∧
          groups.length = track.ViewIds.length ∧
          ∀ (j : Nat) (v : ViewId), track.ViewIds[j]? = some v →
            ∃ (view : View Int) (raw : Feature Int) (view_index track_index : Int),
              shiftedReconstruction.View v = some view ∧
              view.GetFeature t = some raw ∧
              groups[j]? = some (view_index, track_index,
                Feature.mk (raw.x - view.Camera.PrincipalPointX)
                  (raw.y - view.Camera.PrincipalPointY)) ∧
              ∀ zero : Int, (∀ x : Int, x - zero = x) →
                view.Camera.PrincipalPointX = zero → view.Camera.PrincipalPointY = zero →
                groups[j]? = some (view_index, track_index, raw)) ∧
    (∀ (track_id : TrackId) (view_id : ViewId) (st : St Int) (view : View Int)
        (raw : Feature Int) (view_features : UMap TrackId Int) (track_index view_index : Int),
      shiftedReconstruction.View view_id = some view →
      view.GetFeature track_id = some raw →
      UMap.find? st.feature_index_mapping view_id = some view_features →
      UMap.find? view_features track_id = some track_index →
      UMap.find? st.view_id_to_index view_id = some view_index →
      observationBody shiftedReconstruction track_id view_id st =
        Step.ok { st with
          nvm_fh := st.nvm_fh ++
            [Tok.int view_index, Tok.str " ", Tok.int track_index, Tok.str " ",
             Tok.real (raw.x - view.Camera.PrincipalPointX), Tok.str " ",
             Tok.real (raw.y - view.Camera.PrincipalPointY), Tok.str " "] }) :=
  ⟨by decide,
    feature_minus_principal_point (fun _ => true) "x.nvm" shiftedReconstruction (by decide)⟩

end ClaimsOnObservations

section ClaimOnAbort

variable {S : Type} [Sub S] [Div S]

/-- C8: when both files open and the track at position `kt` lists, at position
`jv` of its view list, a stored view whose track list does not contain the
track, the run ends in a crash and returns nothing.  It stops inside the point
record of a track at position `K`, after `J` of its observation groups, and
that place is not past the offending observation: `K < kt`, or `K = kt` and
`J ≤ jv`.  The records of the tracks before `K` are the only complete point
records, the record of track `K` is the last line and is left unfinished, so
no later point record and no terminator line are written. -/
theorem missing_feature_index_is_fatal (is_open : String → Bool) (nvm_filepath : String)
    (reconstruction : Reconstruction S) (h1 : is_open nvm_filepath = true)
    (h2 : is_open (offset_path nvm_filepath) = true)
    (kt : Nat) (t : TrackId) (track : Track S) (jv : Nat) (v : ViewId) (view : View S)
    (hkt : reconstruction.TrackIds[kt]? = some t) (hT : reconstruction.Track t = some track)
    (hjv : track.ViewIds[jv]? = some v) (hV : reconstruction.View v = some view)
    (hmiss : t ∉ view.TrackIds) :
    ∃ (f : Fault) (out : List (Tok S)) (K J : Nat) (tK : TrackId) (trackK : Track S)
        (groups : List (Int × Int × Feature S)),
      (WriteNVMFile is_open nvm_filepath reconstruction).outcome = Outcome.crashed f ∧
      (WriteNVMFile is_open nvm_filepath reconstruction).nvm_file = some out ∧
      (K < kt ∨ (K = kt ∧ J ≤ jv)) ∧
      reconstruction.TrackIds[K]? = some tK ∧ reconstruction.Track tK = some trackK ∧
      J < trackK.ViewIds.length ∧
      (lines out).length = reconstruction.ViewIds.length + K + 5 ∧
      (lines out)[4 + reconstruction.ViewIds.length + K]?
        = some (pointPrefix trackK ++ groups.flatMap renderGroup) ∧
      groups.length = J ∧
      out.getLast? ≠ some Tok.endl := by
  have hbad := obsOk_false_of_not_mem reconstruction t v view hV hmiss
  have hnotok : trackOk reconstruction (finalViewIndex reconstruction)
      (finalFeatureIndex reconstruction) t ≠ true := by
    intro hok
    obtain ⟨track', htrack', hall⟩ := (trackOk_iff _ _ _ _).mp hok
    rw [hT] at htrack'
    have := Option.some.inj htrack'
    subst this
    have := hall v (List.getElem?_mem hjv)
    rw [hbad] at this
    cases this
  have hktlt : kt < reconstruction.TrackIds.length := (List.getElem?_eq_some.mp hkt).1
  obtain ⟨out, K, tail, hfile, hlines, hok, hcase⟩ :=
    lines_of_run is_open nvm_filepath reconstruction h1 h2
  rcases hcase with ⟨-, hK, -⟩ | ⟨f, tK, trackK, J, vJ, hout, hK, htrackK, hJ, -, hall, htail⟩
  · subst hK
    exact absurd (hok t (by simpa using List.getElem?_mem hkt)) hnotok
  · have hKlt : K < reconstruction.TrackIds.length := (List.getElem?_eq_some.mp hK).1
    have hJlt : J < trackK.ViewIds.length := (List.getElem?_eq_some.mp hJ).1
    have hpos : K < kt ∨ (K = kt ∧ J ≤ jv) := by
      by_contra hcon
      have hcon' : kt < K ∨ (K = kt ∧ jv < J) := by omega
      rcases hcon' with hlt | ⟨heq, hlt⟩
      · have hmem : t ∈ reconstruction.TrackIds.take K := by
          apply List.getElem?_mem (n := kt)
          rw [List.getElem?_take_of_lt hlt, hkt]
        exact hnotok (hok t hmem)
      · subst heq
        rw [hkt] at hK
        have := Option.some.inj hK
        subst this
        rw [hT] at htrackK
        have := Option.some.inj htrackK
        subst this
        have hmem : v ∈ track.ViewIds.take J := by
          apply List.getElem?_mem (n := jv)
          rw [List.getElem?_take_of_lt hlt, hjv]
        have := hall v hmem
        rw [hbad] at this
        cases this
    obtain ⟨hlen, -⟩ := groupsOf_of_ok reconstruction (finalViewIndex reconstruction)
      (finalFeatureIndex reconstruction) tK (trackK.ViewIds.take J) hall
    refine ⟨f, out, K, J, tK, trackK, groupsOf reconstruction (finalViewIndex reconstruction)
      (finalFeatureIndex reconstruction) tK (trackK.ViewIds.take J), hout, hfile, hpos, hK,
      htrackK, hJlt, ?_, ?_, ?_, crash_last_item is_open nvm_filepath reconstruction f hout out hfile⟩
    · rw [hlines, htail]
      simp
      omega
    · rw [hlines, htail]
      have := getElem?_after_four [[Tok.str "NVM_V3 "], [],
          [Tok.int (reconstruction.ViewIds.length : Int)]]
        (reconstruction.ViewIds.map (cameraLineOf reconstruction))
        [[Tok.int (reconstruction.TrackIds.length : Int)]]
        ((reconstruction.TrackIds.take K).map (pointLineOf reconstruction
            (finalViewIndex reconstruction) (finalFeatureIndex reconstruction))
          ++ [pointPrefix trackK ++ (trackK.ViewIds.take J).flatMap (groupOf reconstruction
            (finalViewIndex reconstruction) (finalFeatureIndex reconstruction) tK)])
        rfl rfl K
      simp only [List.length_map] at this
      rw [this, List.getElem?_append_right (by simp)]
      have hlenK : ((reconstruction.TrackIds.take K).map (pointLineOf reconstruction
          (finalViewIndex reconstruction) (finalFeatureIndex reconstruction))).length = K := by
        simp; omega
      rw [hlenK, flatMap_groupOf]
      simp
    · rw [hlen]
      simp
      omega

theorem missing_feature_index_is_fatal_witness :
    (fun _ : String => true) "x.nvm" = true ∧
    (fun _ : String => true) (offset_path "x.nvm") = true ∧
    inconsistentReconstruction.TrackIds[0]? = some 3 ∧
    inconsistentReconstruction.Track 3 = some ⟨⟨1, 2, 3, 1⟩, ⟨255, 0, 0⟩, [5]⟩ ∧
    [5][0]? = some 5 ∧
    inconsistentReconstruction.View 5 = some ⟨"a.jpg", exampleCamera, [], exampleFeature 10⟩ ∧
    3 ∉ ([] : List TrackId) ∧
    ∃ (f : Fault) (out : List (Tok Int)) (K J : Nat) (tK : TrackId) (trackK : Track Int)
        (groups : List (Int × Int × Feature Int)),
      (WriteNVMFile (fun _ => true) "x.nvm" inconsistentReconstruction).outcome
        = Outcome.crashed f ∧
      (WriteNVMFile (fun _ => true) "x.nvm" inconsistentReconstruction).nvm_file = some out ∧
      (K < 0 ∨ (K = 0 ∧ J ≤ 0)) ∧
      inconsistentReconstruction.TrackIds[K]? = some tK ∧
      inconsistentReconstruction.Track tK = some trackK ∧
      J < trackK.ViewIds.length ∧
      (lines out).length = inconsistentReconstruction.ViewIds.length + K + 5 ∧
      (lines out)[4 + inconsistentReconstruction.ViewIds.length + K]?
        = some (pointPrefix trackK ++ groups.flatMap renderGroup) ∧
      groups.length = J ∧
      out.getLast? ≠ some Tok.endl :=
  ⟨rfl, rfl, rfl, rfl, rfl, rfl, by simp,
    missing_feature_index_is_fatal (fun _ => true) "x.nvm" inconsistentReconstruction rfl rfl
      0 3 ⟨⟨1, 2, 3, 1⟩, ⟨255, 0, 0⟩, [5]⟩ 0 5 ⟨"a.jpg", exampleCamera, [], exampleFeature 10⟩
      rfl rfl rfl rfl (by simp)⟩

/-- The run on the inconsistent reconstruction: the feature exists, the
feature-index map has no entry, `FindOrDie` ends the run inside the record. -/
theorem example_crash :
    (WriteNVMFile (fun _ => true) "x.nvm" inconsistentReconstruction).outcome
        = Outcome.crashed Fault.findOrDie ∧
    (WriteNVMFile (fun _ => true) "x.nvm" inconsistentReconstruction).nvm_file.map lines
      = some [[Tok.str "NVM_V3 "], [], [Tok.int 1],
          [Tok.str "a.jpg", Tok.str " ", Tok.real 1, Tok.str " ", Tok.real 1, Tok.str " ",
            Tok.real 0, Tok.str " ", Tok.real 0, Tok.str " ", Tok.real 0, Tok.str " ",
            Tok.real 0, Tok.str " ", Tok.real 0, Tok.str " ", Tok.real 0, Tok.str " ",
            Tok.real 0, Tok.str " 0"],
          [Tok.int 1],
          [Tok.real 1, Tok.str " ", Tok.real 2, Tok.str " ", Tok.real 3, Tok.str " ",
            Tok.int 255, Tok.str " ", Tok.int 0, Tok.str " ", Tok.int 0, Tok.str " ",
            Tok.int 1, Tok.str " "]] := by
  decide

end ClaimOnAbort

/-! ## The intrinsics-model tag and the outcome -/

section ModelTypes

variable {S : Type}

theorem ViewIds_withModelTypes (reconstruction : Reconstruction S)
    (tags : ViewId → CameraIntrinsicsModelType) :
    (reconstruction.withModelTypes tags).ViewIds = reconstruction.ViewIds := by
  simp [Reconstruction.ViewIds, Reconstruction.withModelTypes, List.map_map, Function.comp_def]

theorem View_withModelTypes (reconstruction : Reconstruction S)
    (tags : ViewId → CameraIntrinsicsModelType) (v : ViewId) :
    (reconstruction.withModelTypes tags).View v
      = (reconstruction.View v).map (fun view => view.withModelType (tags v)) := by
  unfold Reconstruction.View Reconstruction.withModelTypes
  simp only
  induction reconstruction.views_ with
  | nil => simp [UMap.find?]
  | cons p m ih =>
    obtain ⟨k, view⟩ := p
    by_cases h : k = v
    · subst h
      simp [UMap.find?]
    · simp [UMap.find?, h, ih]

theorem featureIndexLoop_withModelTypes (reconstruction : Reconstruction S)
    (tags : ViewId → CameraIntrinsicsModelType) :
    ∀ (ids : List ViewId) (m : UMap ViewId (UMap TrackId Int)),
      featureIndexLoop (reconstruction.withModelTypes tags) ids m
        = featureIndexLoop reconstruction ids m := by
  intro ids
  induction ids with
  | nil => intro m; rfl
  | cons a rest ih =>
    intro m
    simp only [featureIndexLoop, View_withModelTypes]
    cases reconstruction.View a with
    | none => rfl
    | some view => simpa [View.withModelType] using ih _

theorem finalViewIndex_withModelTypes (reconstruction : Reconstruction S)
    (tags : ViewId → CameraIntrinsicsModelType) :
    finalViewIndex (reconstruction.withModelTypes tags) = finalViewIndex reconstruction := by
  simp [finalViewIndex, ViewIds_withModelTypes]

theorem finalFeatureIndex_withModelTypes (reconstruction : Reconstruction S)
    (tags : ViewId → CameraIntrinsicsModelType) :
    finalFeatureIndex (reconstruction.withModelTypes tags) = finalFeatureIndex reconstruction := by
  simp [finalFeatureIndex, ViewIds_withModelTypes, featureIndexLoop_withModelTypes]

variable [Sub S]

theorem observationResult_withModelTypes (reconstruction : Reconstruction S)
    (tags : ViewId → CameraIntrinsicsModelType) (vmap : UMap ViewId Int)
    (fmap : UMap ViewId (UMap TrackId Int)) (t : TrackId) (v : ViewId) :
    observationResult (reconstruction.withModelTypes tags) vmap fmap t v
      = observationResult reconstruction vmap fmap t v := by
  unfold observationResult
  rw [View_withModelTypes]
  cases reconstruction.View v with
  | none => rfl
  | some view => simp [View.withModelType, Camera.withModelType]

variable [Div S]

theorem outcome_congr (is_open : String → Bool) (nvm_filepath : String)
    (r r' : Reconstruction S) (hT : r'.TrackIds = r.TrackIds)
    (hTr : ∀ t, r'.Track t = r.Track t)
    (hobs : ∀ t v, observationResult r' (finalViewIndex r') (finalFeatureIndex r') t v
      = observationResult r (finalViewIndex r) (finalFeatureIndex r) t v) :
    (WriteNVMFile is_open nvm_filepath r').outcome = (WriteNVMFile is_open nvm_filepath r).outcome := by
  cases h1 : is_open nvm_filepath with
  | false => simp [WriteNVMFile, h1]
  | true =>
    cases h2 : is_open (offset_path nvm_filepath) with
    | false => simp [WriteNVMFile, h1, h2]
    | true =>
      have hobsOk : ∀ t v, obsOk r' (finalViewIndex r') (finalFeatureIndex r') t v
          = obsOk r (finalViewIndex r) (finalFeatureIndex r) t v := by
        intro t v
        simp [obsOk, hobs]
      have htrackOk : ∀ t, trackOk r' (finalViewIndex r') (finalFeatureIndex r') t
          = trackOk r (finalViewIndex r) (finalFeatureIndex r) t := by
        intro t
        unfold trackOk
        rw [hTr]
        cases r.Track t with
        | none => rfl
        | some track =>
          simp only
          congr 1
          funext v
          exact hobsOk t v
      have hclash : ∀ (t : TrackId) (track : Track S) (v : ViewId) (f : Fault),
          r.Track t = some track → v ∈ track.ViewIds →
          observationResult r (finalViewIndex r) (finalFeatureIndex r) t v = Except.error f →
          trackOk r (finalViewIndex r) (finalFeatureIndex r) t = true → False := by
        intro t track v f ht hv herr hok
        obtain ⟨track', ht', hall⟩ := (trackOk_iff _ _ _ _).mp hok
        rw [ht] at ht'
        have := Option.some.inj ht'
        subst this
        obtain ⟨g, hg⟩ := (obsOk_iff _ _ _ _ _).mp (hall v hv)
        rw [hg] at herr
        cases herr
      rcases WriteNVMFile_cases is_open nvm_filepath r h1 h2 with
        ⟨hall, hout, -⟩ | ⟨k, t, track, j, v, f, hk, ht, hj, hv, hall1, hall2, hout, -⟩
      · rcases WriteNVMFile_cases is_open nvm_filepath r' h1 h2 with
          ⟨-, hout', -⟩ | ⟨k', t', track', j', v', f', hk', ht', hj', hv', -, -, -, -⟩
        · rw [hout, hout']
        · exfalso
          rw [hT] at hk'
          rw [hTr] at ht'
          rw [hobs] at hv'
          exact hclash t' track' v' f' ht' (List.getElem?_mem hj') hv'
            (hall t' (List.getElem?_mem hk'))
      · rcases WriteNVMFile_cases is_open nvm_filepath r' h1 h2 with
          ⟨hall', -, -⟩ | ⟨k', t', track', j', v', f', hk', ht', hj', hv', hall1', hall2', hout', -⟩
        · exfalso
          have := hall' t (by rw [hT]; exact List.getElem?_mem hk)
          rw [htrackOk] at this
          exact hclash t track v f ht (List.getElem?_mem hj) hv this
        · rw [hT] at hk' hall1'
          rw [hTr] at ht'
          rw [hobs] at hv'
          rw [hout, hout']
          rcases Nat.lt_trichotomy k k' with hlt | heq | hgt
          · exfalso
            have hmem : t ∈ r.TrackIds.take k' := by
              apply List.getElem?_mem (n := k)
              rw [List.getElem?_take_of_lt hlt, hk]
            have := hall1' t hmem
            rw [htrackOk] at this
            exact hclash t track v f ht (List.getElem?_mem hj) hv this
          · subst heq
            rw [hk] at hk'
            have := Option.some.inj hk'
            subst this
            rw [ht] at ht'
            have := Option.some.inj ht'
            subst this
            rcases Nat.lt_trichotomy j j' with hlt | heq | hgt
            · exfalso
              have hmem : v ∈ track.ViewIds.take j' := by
                apply List.getElem?_mem (n := j)
                rw [List.getElem?_take_of_lt hlt, hj]
              have := hall2' v hmem
              rw [hobsOk] at this
              obtain ⟨g, hg⟩ := (obsOk_iff _ _ _ _ _).mp this
              rw [hg] at hv
              cases hv
            · subst heq
              rw [hj] at hj'
              have := Option.some.inj hj'
              subst this
              rw [hv] at hv'
              cases hv'
              rfl
            · exfalso
              have hmem : v' ∈ track.ViewIds.take j := by
                apply List.getElem?_mem (n := j')
                rw [List.getElem?_take_of_lt hgt, hj']
              obtain ⟨g, hg⟩ := (obsOk_iff _ _ _ _ _).mp (hall2 v' hmem)
              rw [hg] at hv'
              cases hv'
          · exfalso
            have hmem : t' ∈ r.TrackIds.take k := by
              apply List.getElem?_mem (n := k')
              rw [List.getElem?_take_of_lt hgt, hk']
            exact hclash t' track' v' f' ht' (List.getElem?_mem hj') hv' (hall1 t' hmem)

theorem outcome_withModelTypes (is_open : String → Bool) (nvm_filepath : String)
    (reconstruction : Reconstruction S) (tags : ViewId → CameraIntrinsicsModelType) :
    (WriteNVMFile is_open nvm_filepath (reconstruction.withModelTypes tags)).outcome
      = (WriteNVMFile is_open nvm_filepath reconstruction).outcome := by
  apply outcome_congr
  · rfl
  · intro t; rfl
  · intro t v
    rw [finalViewIndex_withModelTypes, finalFeatureIndex_withModelTypes,
      observationResult_withModelTypes]

end ModelTypes

/-! ## The claims -/

section Claims

variable {S : Type}

/-- C2: for pairwise distinct view ids the camera pass runs through and its
view-index map sends the `i`-th view id to `i`; every entry of the map is of
that form and no two view ids share an index, so the map is a bijection from
the view ids onto `[0, view_count)`. -/
theorem view_index_map_bijection (reconstruction : Reconstruction S) (console : List Msg)
    (h : reconstruction.ViewIds.Nodup) :
    ∃ st : St S, cameraPass reconstruction console = Step.ok st ∧
      (∀ (i : Nat) (v : ViewId), reconstruction.ViewIds[i]? = some v →
        UMap.find? st.view_id_to_index v = some (i : Int)) ∧
      (∀ (v : ViewId) (j : Int), UMap.find? st.view_id_to_index v = some j →
        ∃ i : Nat, i < reconstruction.ViewIds.length ∧ reconstruction.ViewIds[i]? = some v ∧
          j = (i : Int)) ∧
      (∀ (v w : ViewId) (j : Int), UMap.find? st.view_id_to_index v = some j →
        UMap.find? st.view_id_to_index w = some j → v = w) := by
  have hrange : ∀ (v : ViewId) (j : Int),
      UMap.find? (finalViewIndex reconstruction) v = some j →
      ∃ i : Nat, i < reconstruction.ViewIds.length ∧ reconstruction.ViewIds[i]? = some v ∧
        j = (i : Int) := by
    intro v j hj
    obtain ⟨i, hi⟩ := List.mem_iff_getElem?.mp (mem_of_find?_finalViewIndex reconstruction v j hj)
    have := find?_finalViewIndex_nodup reconstruction h i v hi
    rw [hj] at this
    exact ⟨i, (List.getElem?_eq_some.mp hi).1, hi, Option.some.inj this⟩
  refine ⟨_, cameraPass_eq reconstruction console, ?_, hrange, ?_⟩
  · intro i v hi
    exact find?_finalViewIndex_nodup reconstruction h i v hi
  · intro v w j hv hw
    obtain ⟨i, _, hi, hji⟩ := hrange v j hv
    obtain ⟨i', _, hi', hji'⟩ := hrange w j hw
    have : i = i' := by
      have := hji.symm.trans hji'
      exact_mod_cast this
    subst this
    rw [hi] at hi'
    exact Option.some.inj hi'

theorem view_index_map_bijection_witness :
    exampleReconstruction.ViewIds.Nodup ∧
    ∃ st : St Int, cameraPass exampleReconstruction [] = Step.ok st ∧
      (∀ (i : Nat) (v : ViewId), exampleReconstruction.ViewIds[i]? = some v →
        UMap.find? st.view_id_to_index v = some (i : Int)) ∧
      (∀ (v : ViewId) (j : Int), UMap.find? st.view_id_to_index v = some j →
        ∃ i : Nat, i < exampleReconstruction.ViewIds.length ∧
          exampleReconstruction.ViewIds[i]? = some v ∧ j = (i : Int)) ∧
      (∀ (v w : ViewId) (j : Int), UMap.find? st.view_id_to_index v = some j →
        UMap.find? st.view_id_to_index w = some j → v = w) :=
  ⟨by decide, view_index_map_bijection exampleReconstruction [] (by decide)⟩

/-- C3: for a stored view whose track list is duplicate-free, the camera pass
runs through and its feature-index map, restricted to that view, sends the
track at position `k` of the view's track list to `k`; every entry under the
view is of that form and no two tracks share an index, so the restriction is a
bijection from the tracks the view observes onto `[0, k)`. -/
theorem feature_index_map_bijection (reconstruction : Reconstruction S) (console : List Msg)
    (v : ViewId) (view : View S) (hview : reconstruction.View v = some view)
    (hnd : view.TrackIds.Nodup) :
    ∃ st : St S, cameraPass reconstruction console = Step.ok st ∧
      (∀ (k : Nat) (t : TrackId), view.TrackIds[k]? = some t →
        findFeatureIndex st.feature_index_mapping v t = some (k : Int)) ∧
      (∀ (t : TrackId) (j : Int), findFeatureIndex st.feature_index_mapping v t = some j →
        ∃ k : Nat, k < view.TrackIds.length ∧ view.TrackIds[k]? = some t ∧ j = (k : Int)) ∧
      (∀ (t u : TrackId) (j : Int), findFeatureIndex st.feature_index_mapping v t = some j →
        findFeatureIndex st.feature_index_mapping v u = some j → t = u) := by
  have hrange : ∀ (t : TrackId) (j : Int),
      findFeatureIndex (finalFeatureIndex reconstruction) v t = some j →
      ∃ k : Nat, k < view.TrackIds.length ∧ view.TrackIds[k]? = some t ∧ j = (k : Int) := by
    intro t j hj
    obtain ⟨view', n, hv', hn, hjn⟩ := finalFeatureIndex_sound reconstruction v t j hj
    rw [hview] at hv'
    have := Option.some.inj hv'
    subst this
    exact ⟨n, (List.getElem?_eq_some.mp hn).1, hn, hjn⟩
  refine ⟨_, cameraPass_eq reconstruction console, ?_, hrange, ?_⟩
  · intro k t hk
    exact finalFeatureIndex_nodup reconstruction v view hview hnd k t hk
  · intro t u j ht hu
    obtain ⟨k, _, hk, hjk⟩ := hrange t j ht
    obtain ⟨k', _, hk', hjk'⟩ := hrange u j hu
    have : k = k' := by
      have := hjk.symm.trans hjk'
      exact_mod_cast this
    subst this
    rw [hk] at hk'
    exact Option.some.inj hk'

theorem feature_index_map_bijection_witness :
    exampleReconstruction.View 9 = some ⟨"b.jpg", exampleCamera, [3], exampleFeature 20⟩ ∧
    [3].Nodup ∧
    ∃ st : St Int, cameraPass exampleReconstruction [] = Step.ok st ∧
      (∀ (k : Nat) (t : TrackId), [3][k]? = some t →
        findFeatureIndex st.feature_index_mapping 9 t = some (k : Int)) ∧
      (∀ (t : TrackId) (j : Int), findFeatureIndex st.feature_index_mapping 9 t = some j →
        ∃ k : Nat, k < [3].length ∧ [3][k]? = some t ∧ j = (k : Int)) ∧
      (∀ (t u : TrackId) (j : Int), findFeatureIndex st.feature_index_mapping 9 t = some j →
        findFeatureIndex st.feature_index_mapping 9 u = some j → t = u) :=
  ⟨rfl, by decide,
    feature_index_map_bijection exampleReconstruction [] 9
      ⟨"b.jpg", exampleCamera, [3], exampleFeature 20⟩ rfl (by decide)⟩

variable [Sub S] [Div S]

/-- C9: when the primary path cannot be opened, `WriteNVMFile` returns `false`,
the only `open` call made is the one on the primary path, neither file is
created and so nothing is written to either. -/
theorem primary_open_failure (is_open : String → Bool) (nvm_filepath : String)
    (reconstruction : Reconstruction S) (h : is_open nvm_filepath = false) :
    (WriteNVMFile is_open nvm_filepath reconstruction).outcome = Outcome.returned false ∧
    (WriteNVMFile is_open nvm_filepath reconstruction).open_calls = [nvm_filepath] ∧
    (WriteNVMFile is_open nvm_filepath reconstruction).offset_file = none ∧
    (WriteNVMFile is_open nvm_filepath reconstruction).nvm_file = none := by
  simp [WriteNVMFile, h]

theorem primary_open_failure_witness :
    (fun _ : String => false) "x.nvm" = false ∧
    (WriteNVMFile (fun _ => false) "x.nvm" exampleReconstruction).outcome
      = Outcome.returned false ∧
    (WriteNVMFile (fun _ => false) "x.nvm" exampleReconstruction).open_calls = ["x.nvm"] ∧
    (WriteNVMFile (fun _ => false) "x.nvm" exampleReconstruction).offset_file = none ∧
    (WriteNVMFile (fun _ => false) "x.nvm" exampleReconstruction).nvm_file = none :=
  ⟨rfl, primary_open_failure (fun _ => false) "x.nvm" exampleReconstruction rfl⟩

/-- C10: when the primary file opens and the offsets file does not,
`WriteNVMFile` returns `false` before anything is pushed into the primary
stream: the primary file exists and is empty, and no offsets file exists. -/
theorem offsets_open_failure (is_open : String → Bool) (nvm_filepath : String)
    (reconstruction : Reconstruction S) (h1 : is_open nvm_filepath = true)
    (h2 : is_open (offset_path nvm_filepath) = false) :
    (WriteNVMFile is_open nvm_filepath reconstruction).outcome = Outcome.returned false ∧
    (WriteNVMFile is_open nvm_filepath reconstruction).nvm_file = some [] ∧
    (WriteNVMFile is_open nvm_filepath reconstruction).offset_file = none := by
  simp [WriteNVMFile, h1, h2]

theorem offsets_open_failure_witness :
    (fun p : String => p == "x.nvm") "x.nvm" = true ∧
    (fun p : String => p == "x.nvm") (offset_path "x.nvm") = false ∧
    (WriteNVMFile (fun p => p == "x.nvm") "x.nvm" exampleReconstruction).outcome
      = Outcome.returned false ∧
    (WriteNVMFile (fun p => p == "x.nvm") "x.nvm" exampleReconstruction).nvm_file = some [] ∧
    (WriteNVMFile (fun p => p == "x.nvm") "x.nvm" exampleReconstruction).offset_file = none :=
  ⟨by decide, by decide,
    offsets_open_failure (fun p => p == "x.nvm") "x.nvm" exampleReconstruction
      (by decide) (by decide)⟩

end Claims

section ClaimOnDistortion

variable {S : Type} [Sub S] [Div S]

/-- C7: in every run in which both files open, the camera record of the `i`-th
view has twenty items, and the one in the distortion position (item 18, before
the closing ` 0`) is the camera's first radial-distortion parameter when the
intrinsics-model tag is `PINHOLE` and the literal string `0` otherwise.
Replacing the tags of any cameras by any others leaves the outcome of the call
unchanged, so a non-pinhole camera never makes the export fail. -/
theorem distortion_field (is_open : String → Bool) (nvm_filepath : String)
    (reconstruction : Reconstruction S) (h1 : is_open nvm_filepath = true)
    (h2 : is_open (offset_path nvm_filepath) = true) :
    (∃ out : List (Tok S),
      (WriteNVMFile is_open nvm_filepath reconstruction).nvm_file = some out ∧
      ∀ (i : Nat) (v : ViewId), reconstruction.ViewIds[i]? = some v →
        ∃ (view : View S) (record : List (Tok S)),
          reconstruction.View v = some view ∧
          (lines out)[3 + i]? = some record ∧
          record = cameraFields view ∧
          record.length = 20 ∧
          record[18]? = some
            (if view.Camera.GetCameraIntrinsicsModelType = CameraIntrinsicsModelType.PINHOLE
              then Tok.real view.Camera.RadialDistortion1
              else Tok.str "0")) ∧
    (∀ tags : ViewId → CameraIntrinsicsModelType,
      (WriteNVMFile is_open nvm_filepath (reconstruction.withModelTypes tags)).outcome
        = (WriteNVMFile is_open nvm_filepath reconstruction).outcome) := by
  refine ⟨?_, outcome_withModelTypes is_open nvm_filepath reconstruction⟩
  obtain ⟨out, hfile, hcam⟩ := camera_line_of_run is_open nvm_filepath reconstruction h1 h2
  refine ⟨out, hfile, ?_⟩
  intro i v hi
  obtain ⟨view, hview, hline⟩ := hcam i v hi
  refine ⟨view, cameraFields view, hview, hline, rfl, ?_, ?_⟩
  · simp only [cameraFields]
    split <;> simp
  · simp only [cameraFields]
    split <;> simp

theorem distortion_field_witness :
    (fun _ : String => true) "x.nvm" = true ∧
    (fun _ : String => true) (offset_path "x.nvm") = true ∧
    (∃ out : List (Tok Int),
      (WriteNVMFile (fun _ => true) "x.nvm" fisheyeReconstruction).nvm_file = some out ∧
      ∀ (i : Nat) (v : ViewId), fisheyeReconstruction.ViewIds[i]? = some v →
        ∃ (view : View Int) (record : List (Tok Int)),
          fisheyeReconstruction.View v = some view ∧
          (lines out)[3 + i]? = some record ∧
          record = cameraFields view ∧
          record.length = 20 ∧
          record[18]? = some
            (if view.Camera.GetCameraIntrinsicsModelType = CameraIntrinsicsModelType.PINHOLE
              then Tok.real view.Camera.RadialDistortion1
              else Tok.str "0")) ∧
    (∀ tags : ViewId → CameraIntrinsicsModelType,
      (WriteNVMFile (fun _ => true) "x.nvm" (fisheyeReconstruction.withModelTypes tags)).outcome
        = (WriteNVMFile (fun _ => true) "x.nvm" fisheyeReconstruction).outcome) :=
  ⟨rfl, rfl, distortion_field (fun _ => true) "x.nvm" fisheyeReconstruction rfl rfl⟩

/-- The run on the worked example with view 9 turned into a fisheye camera:
the call returns `true`, the record of view 5 carries its distortion parameter
and the record of view 9 the literal `0`. -/
theorem example_fisheye :
    (WriteNVMFile (fun _ => true) "x.nvm" fisheyeReconstruction).outcome
        = Outcome.returned true ∧
    (WriteNVMFile (fun _ => true) "x.nvm" fisheyeReconstruction).nvm_file.bind
        (fun out => ((lines out)[3]?).bind (fun record => record[18]?))
      = some (Tok.real 7) ∧
    (WriteNVMFile (fun _ => true) "x.nvm" fisheyeReconstruction).nvm_file.bind
        (fun out => ((lines out)[4]?).bind (fun record => record[18]?))
      = some (Tok.str "0") := by
  decide

end ClaimOnDistortion

/-! ## The offsets stream and the console -/

section SideStreams

variable {S : Type}

theorem flatMap_records {α : Type} (r body : α → List (Tok S)) :
    ∀ xs : List α, (∀ x ∈ xs, r x = body x ++ [Tok.endl]) →
      xs.flatMap r = (xs.map body).flatMap (fun b => b ++ [Tok.endl]) := by
  intro xs
  induction xs with
  | nil => intro _; rfl
  | cons x xs ih =>
    intro h
    simp only [List.flatMap_cons, List.map_cons]
    rw [h x (List.mem_cons_self _ _), ih (fun y hy => h y (List.mem_cons_of_mem _ hy))]

variable [Sub S] [Div S]

theorem WriteNVMFile_side (is_open : String → Bool) (nvm_filepath : String)
    (reconstruction : Reconstruction S) (h1 : is_open nvm_filepath = true)
    (h2 : is_open (offset_path nvm_filepath) = true) :
    (WriteNVMFile is_open nvm_filepath reconstruction).offset_file
      = some (reconstruction.ViewIds.flatMap (offsetRecordOf reconstruction)) ∧
    (WriteNVMFile is_open nvm_filepath reconstruction).console
      = [Msg.cout ("Writing nvm: " ++ nvm_filepath),
          Msg.cout ("Writing optical offsets: " ++ offset_path nvm_filepath)]
        ++ (if reconstruction.ViewIds.isEmpty then [] else [poseOnlyNotice]) ∧
    (WriteNVMFile is_open nvm_filepath reconstruction).open_calls
      = [nvm_filepath, offset_path nvm_filepath] := by
  unfold WriteNVMFile
  simp only [h1, h2, Bool.not_true, Bool.false_eq_true, if_false, cameraPass_eq, pointPass]
  rcases trackLoop_cases reconstruction reconstruction.TrackIds
      (St.nvm_write
        { nvm_fh := cameraSection reconstruction
          offset_fh := reconstruction.ViewIds.flatMap (offsetRecordOf reconstruction)
          console := ([Msg.cout ("Writing nvm: " ++ nvm_filepath)] ++
              [Msg.cout ("Writing optical offsets: " ++ offset_path nvm_filepath)]) ++
            (if reconstruction.ViewIds.isEmpty then [] else [poseOnlyNotice])
          view_id_to_index := finalViewIndex reconstruction
          feature_index_mapping := finalFeatureIndex reconstruction
          printed_warning := !reconstruction.ViewIds.isEmpty }
        [Tok.int (reconstruction.TrackIds.length : Int), Tok.endl]) (fun t ht => ht)
    with ⟨-, hloop⟩ | ⟨k, t, track, j, v, f, -, -, -, -, -, -, hloop⟩
  · rw [hloop]
    simp [St.nvm_write]
  · rw [hloop]
    simp [crashResult, St.nvm_write]

end SideStreams

section ClaimOnOffsetPath

/-- C11: the offsets path is a prefix of the output path, of length
`max(|p| - 4, 0)`, followed by `_offsets.txt`; for a path shorter than four
characters it is exactly `_offsets.txt`. -/
theorem offset_path_drops_last_four (p : String) :
    (∃ pre : String, pre.data <+: p.data ∧
      (pre.length : Int) = max ((p.length : Int) - 4) 0 ∧
      pre.data = p.data.take (p.length - 4) ∧
      offset_path p = pre ++ "_offsets.txt") ∧
    (p.length < 4 → offset_path p = "_offsets.txt") := by
  have hn : (max ((p.length : Int) - 4) 0).toNat = p.length - 4 := by omega
  constructor
  · refine ⟨String.mk (p.data.take (p.length - 4)), List.take_prefix _ _, ?_, rfl, ?_⟩
    · have hlen : (String.mk (p.data.take (p.length - 4))).length = p.length - 4 := by
        show (p.data.take (p.length - 4)).length = p.length - 4
        have hp : p.length = p.data.length := rfl
        rw [List.length_take]
        omega
      rw [hlen]
      omega
    · simp only [offset_path, hn]
  · intro hlt
    have h0 : p.length - 4 = 0 := by omega
    simp only [offset_path, hn, h0, List.take_zero]
    rfl

theorem offset_path_drops_last_four_witness :
    "ab".length < 4 ∧ offset_path "ab" = "_offsets.txt" :=
  ⟨by decide, (offset_path_drops_last_four "ab").2 (by decide)⟩

/-- The offsets paths of `scene.nvm`, `ab` and the empty path. -/
theorem example_offset_paths :
    offset_path "scene.nvm" = "scene_offsets.txt" ∧
    offset_path "ab" = "_offsets.txt" ∧
    offset_path "" = "_offsets.txt" := by
  decide

end ClaimOnOffsetPath

/-! ## The console of a run -/

section Console

theorem cout_nvm_ne_notice (p : String) : Msg.cout ("Writing nvm: " ++ p) ≠ poseOnlyNotice := by
  intro h
  have hs : "Writing nvm: " ++ p
      = "Will save the camera poses, but not the intrinsics, to the NVM output file.\n" :=
    Msg.cout.inj h
  have h2 := congrArg (fun s : String => s.data.take 2) hs
  simp only [String.data_append] at h2
  simp at h2

theorem cout_offsets_ne_notice (p : String) :
    Msg.cout ("Writing optical offsets: " ++ p) ≠ poseOnlyNotice := by
  intro h
  have hs : "Writing optical offsets: " ++ p
      = "Will save the camera poses, but not the intrinsics, to the NVM output file.\n" :=
    Msg.cout.inj h
  have h2 := congrArg (fun s : String => s.data.take 2) hs
  simp only [String.data_append] at h2
  simp at h2

theorem warning_ne_notice (s : String) : Msg.warning s ≠ poseOnlyNotice := by
  intro h
  cases h

variable {S : Type} [Sub S] [Div S]

theorem noticeCount_of_run (is_open : String → Bool) (nvm_filepath : String)
    (reconstruction : Reconstruction S) :
    noticeCount (WriteNVMFile is_open nvm_filepath reconstruction).console
      = if is_open nvm_filepath = true ∧ is_open (offset_path nvm_filepath) = true ∧
            reconstruction.ViewIds ≠ []
        then 1 else 0 := by
  cases h1 : is_open nvm_filepath with
  | false =>
    simp [WriteNVMFile, h1, noticeCount, List.count_cons, cout_nvm_ne_notice, warning_ne_notice]
  | true =>
    cases h2 : is_open (offset_path nvm_filepath) with
    | false =>
      simp [WriteNVMFile, h1, h2, noticeCount, List.count_cons, cout_nvm_ne_notice,
        cout_offsets_ne_notice, warning_ne_notice]
    | true =>
      rw [(WriteNVMFile_side is_open nvm_filepath reconstruction h1 h2).2.1]
      cases hv : reconstruction.ViewIds with
      | nil =>
        simp [noticeCount, List.count_cons, cout_nvm_ne_notice, cout_offsets_ne_notice]
      | cons a rest =>
        simp [noticeCount, List.count_cons, cout_nvm_ne_notice, cout_offsets_ne_notice]

end Console

section ClaimsOnLayout

variable {S : Type} [Sub S] [Div S]

/-- C12, as stated, fails: on the reconstruction with no views and no tracks
the call returns `true` and the first line of the primary output is `NVM_V3`
followed by a space, not `NVM_V3`. -/
theorem version_marker_line_counterexample :
    (WriteNVMFile (fun _ => true) "x.nvm" emptyReconstruction).outcome = Outcome.returned true ∧
    (WriteNVMFile (fun _ => true) "x.nvm" emptyReconstruction).nvm_file.bind
        (fun out => (lines out)[0]?) = some [Tok.str "NVM_V3 "] ∧
    (WriteNVMFile (fun _ => true) "x.nvm" emptyReconstruction).nvm_file.bind
        (fun out => (lines out)[0]?) ≠ some [Tok.str "NVM_V3"] ∧
    (WriteNVMFile (fun _ => true) "x.nvm" emptyReconstruction).nvm_file.map
        (renderText (fun x : Int => toString x)) = some "NVM_V3 \n\n0\n0\n0\n" ∧
    (WriteNVMFile (fun _ => true) "x.nvm" emptyReconstruction).nvm_file.map
        (renderText (fun x : Int => toString x)) ≠ some "NVM_V3\n\n0\n0\n0\n" := by
  decide

/-- C12, amended: when `WriteNVMFile` returns `true`, the primary stream is, in
this order, the item `NVM_V3 ` (the marker followed by one space) and
`std::endl`, a second `std::endl`, the number of view ids and `std::endl`, the
camera records each closed by `std::endl`, the number of track ids and
`std::endl`, the point records each closed by `std::endl`, and the terminator
`0` followed by `std::endl`.  No record holds a `std::endl` inside, so the
lines of the output are exactly these, and the `i`-th camera record and the
`k`-th point record are those of the `i`-th view and the `k`-th track. -/
theorem primary_output_layout (is_open : String → Bool) (nvm_filepath : String)
    (reconstruction : Reconstruction S)
    (hs : (WriteNVMFile is_open nvm_filepath reconstruction).outcome = Outcome.returned true) :
    ∃ (out : List (Tok S)) (camera_records point_records : List (List (Tok S))),
      (WriteNVMFile is_open nvm_filepath reconstruction).nvm_file = some out ∧
      out = [Tok.str "NVM_V3 ", Tok.endl, Tok.endl,
              Tok.int (reconstruction.ViewIds.length : Int), Tok.endl]
        ++ camera_records.flatMap (fun r => r ++ [Tok.endl])
        ++ [Tok.int (reconstruction.TrackIds.length : Int), Tok.endl]
        ++ point_records.flatMap (fun r => r ++ [Tok.endl])
        ++ [Tok.str "0", Tok.endl] ∧
      (∀ r ∈ camera_records, Tok.endl ∉ r) ∧
      (∀ r ∈ point_records, Tok.endl ∉ r) ∧
      lines out = [[Tok.str "NVM_V3 "], [], [Tok.int (reconstruction.ViewIds.length : Int)]]
        ++ camera_records ++ [[Tok.int (reconstruction.TrackIds.length : Int)]]
        ++ point_records ++ [[Tok.str "0"]] ∧
      camera_records.length = reconstruction.ViewIds.length ∧
      point_records.length = reconstruction.TrackIds.length ∧
      (∀ (i : Nat) (v : ViewId), reconstruction.ViewIds[i]? = some v →
        ∃ view : View S, reconstruction.View v = some view ∧
          camera_records[i]? = some (cameraFields view)) ∧
      (∀ (k : Nat) (t : TrackId), reconstruction.TrackIds[k]? = some t →
        ∃ (track : Track S) (groups : List (Int × Int × Feature S)),
          reconstruction.Track t = some track ∧
          point_records[k]? = some (pointPrefix track ++ groups.flatMap renderGroup)) := by
  have hopen := WriteNVMFile_opened is_open nvm_filepath reconstruction (by rw [hs]; simp)
  obtain ⟨out, hfile, hlines, hpt⟩ := success_point_line is_open nvm_filepath reconstruction hs
  have hcam : ∀ v ∈ reconstruction.ViewIds,
      cameraRecordOf reconstruction v = cameraLineOf reconstruction v ++ [Tok.endl] := by
    intro v hv
    obtain ⟨view, hview⟩ := View_of_mem reconstruction v hv
    simp [cameraRecordOf, cameraLineOf, hview, cameraRecord]
  have hrec : ∀ t ∈ reconstruction.TrackIds,
      pointRecordOf reconstruction (finalViewIndex reconstruction)
          (finalFeatureIndex reconstruction) t
        = pointLineOf reconstruction (finalViewIndex reconstruction)
          (finalFeatureIndex reconstruction) t ++ [Tok.endl] := by
    intro t ht
    obtain ⟨track, htrack⟩ := Track_of_mem reconstruction t ht
    simp [pointRecordOf, pointLineOf, htrack]
  refine ⟨out, reconstruction.ViewIds.map (cameraLineOf reconstruction),
    reconstruction.TrackIds.map (pointLineOf reconstruction (finalViewIndex reconstruction)
      (finalFeatureIndex reconstruction)), hfile, ?_, ?_, ?_, hlines, by simp, by simp, ?_, ?_⟩
  · rcases WriteNVMFile_cases is_open nvm_filepath reconstruction hopen.1 hopen.2 with
      ⟨-, -, hfile'⟩ | ⟨_, _, _, _, _, f, _, _, _, _, _, _, hout, _⟩
    · rw [hfile] at hfile'
      rw [Option.some.inj hfile', cameraSection, headerItems,
        flatMap_records _ _ _ hcam, flatMap_records _ _ _ hrec]
    · rw [hout] at hs
      cases hs
  · intro r hr
    obtain ⟨v, hv, rfl⟩ := List.mem_map.mp hr
    obtain ⟨view, hview⟩ := View_of_mem reconstruction v hv
    simp only [cameraLineOf, hview]
    exact endl_not_mem_cameraFields view
  · intro r hr
    obtain ⟨t, -, rfl⟩ := List.mem_map.mp hr
    exact endl_not_mem_pointLineOf _ _ _ _
  · intro i v hi
    obtain ⟨view, hview⟩ := View_of_mem reconstruction v (List.getElem?_mem hi)
    exact ⟨view, hview, by simp [List.getElem?_map, hi, cameraLineOf, hview]⟩
  · intro k t hk
    obtain ⟨track, htrack, -, hline, -⟩ := hpt k t hk
    exact ⟨track, groupsOf reconstruction (finalViewIndex reconstruction)
      (finalFeatureIndex reconstruction) t track.ViewIds, htrack,
      by simp [List.getElem?_map, hk, hline]⟩

theorem primary_output_layout_witness :
    (WriteNVMFile (fun _ => true) "x.nvm" exampleReconstruction).outcome = Outcome.returned true ∧
    ∃ (out : List (Tok Int)) (camera_records point_records : List (List (Tok Int))),
      (WriteNVMFile (fun _ => true) "x.nvm" exampleReconstruction).nvm_file = some out ∧
      out = [Tok.str "NVM_V3 ", Tok.endl, Tok.endl,
              Tok.int (exampleReconstruction.ViewIds.length : Int), Tok.endl]
        ++ camera_records.flatMap (fun r => r ++ [Tok.endl])
        ++ [Tok.int (exampleReconstruction.TrackIds.length : Int), Tok.endl]
        ++ point_records.flatMap (fun r => r ++ [Tok.endl])
        ++ [Tok.str "0", Tok.endl] ∧
      (∀ r ∈ camera_records, Tok.endl ∉ r) ∧
      (∀ r ∈ point_records, Tok.endl ∉ r) ∧
      lines out = [[Tok.str "NVM_V3 "], [], [Tok.int (exampleReconstruction.ViewIds.length : Int)]]
        ++ camera_records ++ [[Tok.int (exampleReconstruction.TrackIds.length : Int)]]
        ++ point_records ++ [[Tok.str "0"]] ∧
      camera_records.length = exampleReconstruction.ViewIds.length ∧
      point_records.length = exampleReconstruction.TrackIds.length ∧
      (∀ (i : Nat) (v : ViewId), exampleReconstruction.ViewIds[i]? = some v →
        ∃ view : View Int, exampleReconstruction.View v = some view ∧
          camera_records[i]? = some (cameraFields view)) ∧
      (∀ (k : Nat) (t : TrackId), exampleReconstruction.TrackIds[k]? = some t →
        ∃ (track : Track Int) (groups : List (Int × Int × Feature Int)),
          exampleReconstruction.Track t = some track ∧
          point_records[k]? = some (pointPrefix track ++ groups.flatMap renderGroup)) :=
  ⟨by decide, primary_output_layout (fun _ => true) "x.nvm" exampleReconstruction (by decide)⟩

end ClaimsOnLayout

section ClaimsOnOffsetsAndEmpty

variable {S : Type} [Sub S] [Div S]

/-- C13: in every run in which both files open, the offsets stream receives
exactly one record per view id, in the order of the view ids, which is the
order of the camera records of the primary output; the `k`-th record is the
name of the `k`-th view, a space, the principal-point x of its camera, a space,
the principal-point y and a newline. -/
theorem offsets_file_records (is_open : String → Bool) (nvm_filepath : String)
    (reconstruction : Reconstruction S) (h1 : is_open nvm_filepath = true)
    (h2 : is_open (offset_path nvm_filepath) = true) :
    ∃ (out : List (Tok S)) (records : List (List (Tok S))),
      (WriteNVMFile is_open nvm_filepath reconstruction).nvm_file = some out ∧
      (WriteNVMFile is_open nvm_filepath reconstruction).offset_file = some records.flatten ∧
      records.length = reconstruction.ViewIds.length ∧
      ∀ (k : Nat) (v : ViewId), reconstruction.ViewIds[k]? = some v →
        ∃ view : View S, reconstruction.View v = some view ∧
          records[k]? = some [Tok.str view.Name, Tok.str " ",
            Tok.real view.Camera.PrincipalPointX, Tok.str " ",
            Tok.real view.Camera.PrincipalPointY, Tok.str "\n"] ∧
          (lines out)[3 + k]? = some (cameraFields view) := by
  obtain ⟨out, hfile, hcam⟩ := camera_line_of_run is_open nvm_filepath reconstruction h1 h2
  refine ⟨out, reconstruction.ViewIds.map (offsetRecordOf reconstruction), hfile, ?_, by simp, ?_⟩
  · rw [(WriteNVMFile_side is_open nvm_filepath reconstruction h1 h2).1, List.flatMap_def]
  · intro k v hk
    obtain ⟨view, hview, hline⟩ := hcam k v hk
    refine ⟨view, hview, ?_, hline⟩
    simp [List.getElem?_map, hk, offsetRecordOf, hview, offsetRecord]

theorem offsets_file_records_witness :
    (fun _ : String => true) "x.nvm" = true ∧
    (fun _ : String => true) (offset_path "x.nvm") = true ∧
    ∃ (out : List (Tok Int)) (records : List (List (Tok Int))),
      (WriteNVMFile (fun _ => true) "x.nvm" exampleReconstruction).nvm_file = some out ∧
      (WriteNVMFile (fun _ => true) "x.nvm" exampleReconstruction).offset_file
        = some records.flatten ∧
      records.length = exampleReconstruction.ViewIds.length ∧
      ∀ (k : Nat) (v : ViewId), exampleReconstruction.ViewIds[k]? = some v →
        ∃ view : View Int, exampleReconstruction.View v = some view ∧
          records[k]? = some [Tok.str view.Name, Tok.str " ",
            Tok.real view.Camera.PrincipalPointX, Tok.str " ",
            Tok.real view.Camera.PrincipalPointY, Tok.str "\n"] ∧
          (lines out)[3 + k]? = some (cameraFields view) :=
  ⟨rfl, rfl, offsets_file_records (fun _ => true) "x.nvm" exampleReconstruction rfl rfl⟩

/-- The offsets stream of the worked example. -/
theorem example_offsets_file :
    (WriteNVMFile (fun _ => true) "x.nvm" exampleReconstruction).offset_file
      = some [Tok.str "a.jpg", Tok.str " ", Tok.real 0, Tok.str " ", Tok.real 0, Tok.str "\n",
          Tok.str "b.jpg", Tok.str " ", Tok.real 0, Tok.str " ", Tok.real 0, Tok.str "\n"] := by
  decide

/-- C19: for a reconstruction with no views and no tracks, when both files
open, `WriteNVMFile` returns `true`; the primary stream is the header item and
two `std::endl`, then three times a `0` and `std::endl` (view count, track
count, terminator), that is the five lines header, blank, `0`, `0`, `0`, with
text `NVM_V3 \n\n0\n0\n0\n`; the offsets stream is empty and the console holds
no pose-only notice. -/
theorem empty_reconstruction_output (is_open : String → Bool) (nvm_filepath : String)
    (reconstruction : Reconstruction S) (hv : reconstruction.views_ = [])
    (ht : reconstruction.tracks_ = []) (h1 : is_open nvm_filepath = true)
    (h2 : is_open (offset_path nvm_filepath) = true) :
    (WriteNVMFile is_open nvm_filepath reconstruction).outcome = Outcome.returned true ∧
    (WriteNVMFile is_open nvm_filepath reconstruction).nvm_file
      = some [Tok.str "NVM_V3 ", Tok.endl, Tok.endl, Tok.int 0, Tok.endl, Tok.int 0, Tok.endl,
          Tok.str "0", Tok.endl] ∧
    lines ([Tok.str "NVM_V3 ", Tok.endl, Tok.endl, Tok.int 0, Tok.endl, Tok.int 0, Tok.endl,
          Tok.str "0", Tok.endl] : List (Tok S))
      = [[Tok.str "NVM_V3 "], [], [Tok.int 0], [Tok.int 0], [Tok.str "0"]] ∧
    (∀ fmt : S → String,
      renderText fmt ([Tok.str "NVM_V3 ", Tok.endl, Tok.endl, Tok.int 0, Tok.endl, Tok.int 0,
          Tok.endl, Tok.str "0", Tok.endl] : List (Tok S)) = "NVM_V3 \n\n0\n0\n0\n") ∧
    (WriteNVMFile is_open nvm_filepath reconstruction).offset_file = some [] ∧
    poseOnlyNotice ∉ (WriteNVMFile is_open nvm_filepath reconstruction).console ∧
    noticeCount (WriteNVMFile is_open nvm_filepath reconstruction).console = 0 := by
  have hV : reconstruction.ViewIds = [] := by simp [Reconstruction.ViewIds, hv]
  have hT : reconstruction.TrackIds = [] := by simp [Reconstruction.TrackIds, ht]
  have hside := WriteNVMFile_side is_open nvm_filepath reconstruction h1 h2
  have hcount := noticeCount_of_run is_open nvm_filepath reconstruction
  rw [hV] at hcount
  simp only [ne_eq, not_true_eq_false, and_false, if_false] at hcount
  refine ⟨?_, ?_, ?_, ?_, ?_, ?_, hcount⟩
  · rcases WriteNVMFile_cases is_open nvm_filepath reconstruction h1 h2 with
      ⟨-, hout, -⟩ | ⟨k, t, _, _, _, _, hk, _⟩
    · exact hout
    · rw [hT] at hk
      simp at hk
  · rcases WriteNVMFile_cases is_open nvm_filepath reconstruction h1 h2 with
      ⟨-, -, hfile⟩ | ⟨k, t, _, _, _, _, hk, _⟩
    · rw [hfile]
      simp [cameraSection, headerItems, hV, hT]
    · rw [hT] at hk
      simp at hk
  · simp [lines, linesAux]
  · intro fmt
    simp only [renderText, List.map, Tok.text]
    decide
  · rw [hside.1, hV]
    rfl
  · intro hmem
    have := List.count_pos_iff.mpr hmem
    unfold noticeCount at hcount
    omega

theorem empty_reconstruction_output_witness :
    emptyReconstruction.views_ = [] ∧ emptyReconstruction.tracks_ = [] ∧
    (fun _ : String => true) "x.nvm" = true ∧
    (fun _ : String => true) (offset_path "x.nvm") = true ∧
    (WriteNVMFile (fun _ => true) "x.nvm" emptyReconstruction).outcome = Outcome.returned true ∧
    (WriteNVMFile (fun _ => true) "x.nvm" emptyReconstruction).nvm_file
      = some [Tok.str "NVM_V3 ", Tok.endl, Tok.endl, Tok.int 0, Tok.endl, Tok.int 0, Tok.endl,
          Tok.str "0", Tok.endl] ∧
    lines ([Tok.str "NVM_V3 ", Tok.endl, Tok.endl, Tok.int 0, Tok.endl, Tok.int 0, Tok.endl,
          Tok.str "0", Tok.endl] : List (Tok Int))
      = [[Tok.str "NVM_V3 "], [], [Tok.int 0], [Tok.int 0], [Tok.str "0"]] ∧
    (∀ fmt : Int → String,
      renderText fmt ([Tok.str "NVM_V3 ", Tok.endl, Tok.endl, Tok.int 0, Tok.endl, Tok.int 0,
          Tok.endl, Tok.str "0", Tok.endl] : List (Tok Int)) = "NVM_V3 \n\n0\n0\n0\n") ∧
    (WriteNVMFile (fun _ => true) "x.nvm" emptyReconstruction).offset_file = some [] ∧
    poseOnlyNotice ∉ (WriteNVMFile (fun _ => true) "x.nvm" emptyReconstruction).console ∧
    noticeCount (WriteNVMFile (fun _ => true) "x.nvm" emptyReconstruction).console = 0 :=
  ⟨rfl, rfl, rfl, rfl,
    empty_reconstruction_output (fun _ => true) "x.nvm" emptyReconstruction rfl rfl rfl rfl⟩

end ClaimsOnOffsetsAndEmpty

section ClaimOnCameraRecord

variable {S : Type}

theorem renderText_cameraFields (fmt : S → String) (view : View S) :
    renderText fmt (cameraFields view)
      = String.intercalate " "
          [view.Name, fmt view.Camera.FocalLength,
           fmt view.Camera.OrientationQuaternion.w, fmt view.Camera.OrientationQuaternion.x,
           fmt view.Camera.OrientationQuaternion.y, fmt view.Camera.OrientationQuaternion.z,
           fmt view.Camera.GetPosition.x, fmt view.Camera.GetPosition.y,
           fmt view.Camera.GetPosition.z,
           (if view.Camera.GetCameraIntrinsicsModelType = CameraIntrinsicsModelType.PINHOLE
             then fmt view.Camera.RadialDistortion1 else "0"),
           "0"] := by
  simp only [cameraFields]
  split <;>
    simp [renderText, Tok.text, String.join, String.intercalate, String.intercalate.go,
      String.append_assoc]

variable [Sub S] [Div S]

/-- C14: in every run in which both files open, the camera record of the `i`-th
view is one line of the primary output (line `3 + i`, with no `std::endl`
inside), and its text is, separated by single spaces: the view name, the focal
length, the quaternion `w x y z`, the position `x y z`, the distortion field
and a last field `0`. -/
theorem camera_record_fields (is_open : String → Bool) (nvm_filepath : String)
    (reconstruction : Reconstruction S) (h1 : is_open nvm_filepath = true)
    (h2 : is_open (offset_path nvm_filepath) = true) :
    ∃ out : List (Tok S),
      (WriteNVMFile is_open nvm_filepath reconstruction).nvm_file = some out ∧
      ∀ (i : Nat) (v : ViewId), reconstruction.ViewIds[i]? = some v →
        ∃ (view : View S) (record : List (Tok S)),
          reconstruction.View v = some view ∧
          (lines out)[3 + i]? = some record ∧
          Tok.endl ∉ record ∧
          ∀ fmt : S → String, renderText fmt record
            = String.intercalate " "
                [view.Name, fmt view.Camera.FocalLength,
                 fmt view.Camera.OrientationQuaternion.w,
                 fmt view.Camera.OrientationQuaternion.x,
                 fmt view.Camera.OrientationQuaternion.y,
                 fmt view.Camera.OrientationQuaternion.z,
                 fmt view.Camera.GetPosition.x, fmt view.Camera.GetPosition.y,
                 fmt view.Camera.GetPosition.z,
                 (if view.Camera.GetCameraIntrinsicsModelType
                      = CameraIntrinsicsModelType.PINHOLE
                   then fmt view.Camera.RadialDistortion1 else "0"),
                 "0"] := by
  obtain ⟨out, hfile, hcam⟩ := camera_line_of_run is_open nvm_filepath reconstruction h1 h2
  refine ⟨out, hfile, ?_⟩
  intro i v hi
  obtain ⟨view, hview, hline⟩ := hcam i v hi
  exact ⟨view, cameraFields view, hview, hline, endl_not_mem_cameraFields view,
    fun fmt => renderText_cameraFields fmt view⟩

theorem camera_record_fields_witness :
    (fun _ : String => true) "x.nvm" = true ∧
    (fun _ : String => true) (offset_path "x.nvm") = true ∧
    ∃ out : List (Tok Int),
      (WriteNVMFile (fun _ => true) "x.nvm" fisheyeReconstruction).nvm_file = some out ∧
      ∀ (i : Nat) (v : ViewId), fisheyeReconstruction.ViewIds[i]? = some v →
        ∃ (view : View Int) (record : List (Tok Int)),
          fisheyeReconstruction.View v = some view ∧
          (lines out)[3 + i]? = some record ∧
          Tok.endl ∉ record ∧
          ∀ fmt : Int → String, renderText fmt record
            = String.intercalate " "
                [view.Name, fmt view.Camera.FocalLength,
                 fmt view.Camera.OrientationQuaternion.w,
                 fmt view.Camera.OrientationQuaternion.x,
                 fmt view.Camera.OrientationQuaternion.y,
                 fmt view.Camera.OrientationQuaternion.z,
                 fmt view.Camera.GetPosition.x, fmt view.Camera.GetPosition.y,
                 fmt view.Camera.GetPosition.z,
                 (if view.Camera.GetCameraIntrinsicsModelType
                      = CameraIntrinsicsModelType.PINHOLE
                   then fmt view.Camera.RadialDistortion1 else "0"),
                 "0"] :=
  ⟨rfl, rfl, camera_record_fields (fun _ => true) "x.nvm" fisheyeReconstruction rfl rfl⟩

/-- The text of the two camera records of the fisheye example. -/
theorem example_camera_record_text :
    (WriteNVMFile (fun _ => true) "x.nvm" fisheyeReconstruction).nvm_file.bind
        (fun out => ((lines out)[3]?).map (renderText (fun x : Int => toString x)))
      = some "a.jpg 1 1 0 0 0 0 0 0 7 0" ∧
    (WriteNVMFile (fun _ => true) "x.nvm" fisheyeReconstruction).nvm_file.bind
        (fun out => ((lines out)[4]?).map (renderText (fun x : Int => toString x)))
      = some "b.jpg 1 1 0 0 0 0 0 0 0 0" := by
  decide

end ClaimOnCameraRecord

section ClaimsOnNotice

variable {S : Type}

theorem cameraBody_notice (reconstruction : Reconstruction S) (view_id : ViewId)
    (view : View S) (st : St S) (hview : reconstruction.View view_id = some view) :
    ∃ st1 : St S, cameraBody reconstruction view_id st = Step.ok st1 ∧
      st1.printed_warning = true ∧
      st1.console = st.console ++ (if st.printed_warning = true then [] else [poseOnlyNotice]) := by
  cases hp : st.printed_warning <;> simp [cameraBody, hview, hp]

variable [Sub S] [Div S]

/-- C15, as stated, fails: in the worked example every camera uses the pinhole
model, both files open, and the pose-only notice is written. -/
theorem pose_only_notice_counterexample :
    (∀ p ∈ exampleReconstruction.views_,
      p.2.Camera.GetCameraIntrinsicsModelType = CameraIntrinsicsModelType.PINHOLE) ∧
    (WriteNVMFile (fun _ => true) "x.nvm" exampleReconstruction).outcome = Outcome.returned true ∧
    poseOnlyNotice ∈ (WriteNVMFile (fun _ => true) "x.nvm" exampleReconstruction).console ∧
    noticeCount (WriteNVMFile (fun _ => true) "x.nvm" exampleReconstruction).console = 1 := by
  decide

/-- C15, amended: the pose-only notice is written exactly when both files open
and the reconstruction has at least one view, and then once, whatever the
intrinsics-model tags of the cameras.  It is written by the body of the camera
loop that finds the flag cleared, which is the body of the first view: the flag
starts cleared, and every body leaves it set. -/
theorem pose_only_notice_at_first_view (is_open : String → Bool) (nvm_filepath : String)
    (reconstruction : Reconstruction S) :
    (noticeCount (WriteNVMFile is_open nvm_filepath reconstruction).console
      = if is_open nvm_filepath = true ∧ is_open (offset_path nvm_filepath) = true ∧
            reconstruction.ViewIds ≠ []
        then 1 else 0) ∧
    (∀ tags : ViewId → CameraIntrinsicsModelType,
      noticeCount (WriteNVMFile is_open nvm_filepath (reconstruction.withModelTypes tags)).console
        = noticeCount (WriteNVMFile is_open nvm_filepath reconstruction).console) ∧
    (∀ console : List Msg, (initialState reconstruction console).printed_warning = false) ∧
    (∀ (view_id : ViewId) (view : View S) (st : St S),
      reconstruction.View view_id = some view →
      ∃ st1 : St S, cameraBody reconstruction view_id st = Step.ok st1 ∧
        st1.printed_warning = true ∧
        st1.console
          = st.console ++ (if st.printed_warning = true then [] else [poseOnlyNotice])) := by
  refine ⟨noticeCount_of_run is_open nvm_filepath reconstruction, ?_, fun _ => rfl,
    fun view_id view st h => cameraBody_notice reconstruction view_id view st h⟩
  intro tags
  rw [noticeCount_of_run, noticeCount_of_run, ViewIds_withModelTypes]

theorem pose_only_notice_at_first_view_witness :
    exampleReconstruction.View 5 = some ⟨"a.jpg", exampleCamera, [3], exampleFeature 10⟩ ∧
    ∃ st1 : St Int,
      cameraBody exampleReconstruction 5 (initialState exampleReconstruction []) = Step.ok st1 ∧
      st1.printed_warning = true ∧
      st1.console = (initialState exampleReconstruction []).console ++
        (if (initialState exampleReconstruction []).printed_warning = true then []
          else [poseOnlyNotice]) :=
  ⟨rfl, (pose_only_notice_at_first_view (fun _ => true) "x.nvm" exampleReconstruction).2.2.2
    5 ⟨"a.jpg", exampleCamera, [3], exampleFeature 10⟩ (initialState exampleReconstruction [])
    rfl⟩

/-- C16: a call of `WriteNVMFile` writes the pose-only notice at most once,
however many views it exports.  The flag `printed_warning` is a local of the
call and is cleared on entry to the camera loop; the number of notices is a
function of the arguments of the call alone (whether the two files open and
whether there is a view), so it is the same whatever was exported by an
earlier call. -/
theorem pose_only_notice_at_most_once (is_open : String → Bool) (nvm_filepath : String)
    (reconstruction : Reconstruction S) :
    noticeCount (WriteNVMFile is_open nvm_filepath reconstruction).console ≤ 1 ∧
    (∀ console : List Msg, (initialState reconstruction console).printed_warning = false) ∧
    (∀ (earlier_path : String) (earlier : Reconstruction S),
      noticeCount (WriteNVMFile is_open earlier_path earlier).console
          + noticeCount (WriteNVMFile is_open nvm_filepath reconstruction).console
        = (if is_open earlier_path = true ∧ is_open (offset_path earlier_path) = true ∧
              earlier.ViewIds ≠ []
            then 1 else 0)
          + (if is_open nvm_filepath = true ∧ is_open (offset_path nvm_filepath) = true ∧
              reconstruction.ViewIds ≠ []
            then 1 else 0)) := by
  refine ⟨?_, fun _ => rfl, ?_⟩
  · rw [noticeCount_of_run]
    split <;> omega
  · intro earlier_path earlier
    rw [noticeCount_of_run, noticeCount_of_run]

/-- Two calls in a row on the worked example: each writes the notice once. -/
theorem example_two_calls :
    noticeCount (WriteNVMFile (fun _ => true) "x.nvm" exampleReconstruction).console = 1 ∧
    noticeCount (WriteNVMFile (fun _ => true) "y.nvm" exampleReconstruction).console = 1 ∧
    noticeCount (WriteNVMFile (fun _ => true) "z.nvm" emptyReconstruction).console = 0 := by
  decide

end ClaimsOnNotice

/-! ## Keys of the two index maps -/

section MapKeys

variable {S : Type}

theorem find?_assignFeatureIndex_isSome (m : UMap ViewId (UMap TrackId Int)) (v v' : ViewId)
    (t : TrackId) (i : Int)
    (h : (UMap.find? (assignFeatureIndex m v t i) v').isSome) :
    v' = v ∨ (UMap.find? m v').isSome := by
  by_cases hv : v' = v
  · exact Or.inl hv
  · right
    unfold assignFeatureIndex at h
    rwa [UMap.find?_assign_ne _ _ (fun e => hv e.symm)] at h

theorem find?_featureLoop_isSome (v v' : ViewId) :
    ∀ (ts : List TrackId) (i : Nat) (m : UMap ViewId (UMap TrackId Int)),
      (UMap.find? (featureLoop v ts i m) v').isSome → v' = v ∨ (UMap.find? m v').isSome := by
  intro ts
  induction ts with
  | nil => intro i m h; exact Or.inr h
  | cons a rest ih =>
    intro i m h
    simp only [featureLoop] at h
    rcases ih _ _ h with h' | h'
    · exact Or.inl h'
    · exact find?_assignFeatureIndex_isSome m v v' a _ h'

theorem find?_featureIndexLoop_isSome (reconstruction : Reconstruction S) (v' : ViewId) :
    ∀ (ids : List ViewId) (m : UMap ViewId (UMap TrackId Int)),
      (UMap.find? (featureIndexLoop reconstruction ids m) v').isSome →
      v' ∈ ids ∨ (UMap.find? m v').isSome := by
  intro ids
  induction ids with
  | nil => intro m h; exact Or.inr h
  | cons a rest ih =>
    intro m h
    cases ha : reconstruction.View a with
    | none =>
      simp only [featureIndexLoop, ha] at h
      exact Or.inr h
    | some view =>
      simp only [featureIndexLoop, ha] at h
      rcases ih _ h with h' | h'
      · exact Or.inl (List.mem_cons_of_mem _ h')
      · rcases find?_featureLoop_isSome a v' _ _ _ h' with h'' | h''
        · exact Or.inl (by rw [h'']; exact List.mem_cons_self _ _)
        · exact Or.inr h''

theorem finalFeatureIndex_key (reconstruction : Reconstruction S) (v : ViewId)
    (h : (UMap.find? (finalFeatureIndex reconstruction) v).isSome) :
    (UMap.find? (finalViewIndex reconstruction) v).isSome := by
  rcases find?_featureIndexLoop_isSome reconstruction v _ _ h with h' | h'
  · exact find?_finalViewIndex_isSome reconstruction v h'
  · simp [UMap.find?] at h'

variable [Sub S]

theorem obsOk_of_consistent (reconstruction : Reconstruction S) (t : TrackId) (v : ViewId)
    (view : View S) (raw : Feature S) (hview : reconstruction.View v = some view)
    (ht : t ∈ view.TrackIds) (hraw : view.GetFeature t = some raw) :
    obsOk reconstruction (finalViewIndex reconstruction) (finalFeatureIndex reconstruction) t v
      = true := by
  obtain ⟨n, -, hn⟩ := finalFeatureIndex_complete reconstruction v view hview t ht
  obtain ⟨vi, hvi⟩ := Option.isSome_iff_exists.mp
    (find?_finalViewIndex_isSome reconstruction v (mem_ViewIds_of_View reconstruction v view hview))
  simp [obsOk, observationResult, hview, hraw, hn, hvi, Except.toBool]

theorem lookup_miss_of_error (reconstruction : Reconstruction S) (t : TrackId) (v : ViewId)
    (f : Fault)
    (h : observationResult reconstruction (finalViewIndex reconstruction)
      (finalFeatureIndex reconstruction) t v = Except.error f) :
    reconstruction.View v = none ∨
      ∃ view : View S, reconstruction.View v = some view ∧
        (view.GetFeature t = none ∨ t ∉ view.TrackIds) := by
  cases hview : reconstruction.View v with
  | none => exact Or.inl rfl
  | some view =>
    right
    refine ⟨view, rfl, ?_⟩
    cases hraw : view.GetFeature t with
    | none => exact Or.inl rfl
    | some raw =>
      right
      intro ht
      have hok := obsOk_of_consistent reconstruction t v view raw hview ht hraw
      obtain ⟨g, hg⟩ := (obsOk_iff _ _ _ _ _).mp hok
      rw [hg] at h
      cases h

end MapKeys

section ClaimsOnLookups

variable {S : Type} [Sub S] [Div S]

/-- C17: when both files open and, for every stored track and every view id of
its view list, the view is stored, has the track in its track list and has a
feature for it, `WriteNVMFile` returns `true`.  In general a call either
returns `true`, or returns `false` because one of the two files did not open,
or crashes at an observation whose view is not stored, has no feature for the
track or does not list the track. -/
theorem consistent_reconstruction_succeeds (is_open : String → Bool) (nvm_filepath : String)
    (reconstruction : Reconstruction S) (h1 : is_open nvm_filepath = true)
    (h2 : is_open (offset_path nvm_filepath) = true)
    (hcons : ∀ t ∈ reconstruction.TrackIds, ∀ track : Track S,
      reconstruction.Track t = some track → ∀ v ∈ track.ViewIds,
        ∃ view : View S, reconstruction.View v = some view ∧ t ∈ view.TrackIds ∧
          (view.GetFeature t).isSome = true) :
    (WriteNVMFile is_open nvm_filepath reconstruction).outcome = Outcome.returned true ∧
    (∀ (is_open' : String → Bool) (path' : String) (r : Reconstruction S),
      (WriteNVMFile is_open' path' r).outcome = Outcome.returned true ∨
      ((WriteNVMFile is_open' path' r).outcome = Outcome.returned false ∧
        (is_open' path' = false ∨ is_open' (offset_path path') = false)) ∨
      (∃ (f : Fault) (t : TrackId) (track : Track S) (v : ViewId),
        (WriteNVMFile is_open' path' r).outcome = Outcome.crashed f ∧
        t ∈ r.TrackIds ∧ r.Track t = some track ∧ v ∈ track.ViewIds ∧
        (r.View v = none ∨
          ∃ view : View S, r.View v = some view ∧
            (view.GetFeature t = none ∨ t ∉ view.TrackIds)))) := by
  constructor
  · rcases WriteNVMFile_cases is_open nvm_filepath reconstruction h1 h2 with
      ⟨-, hout, -⟩ | ⟨k, t, track, j, v, f, hk, ht, hj, hv, -, -, -, -⟩
    · exact hout
    · exfalso
      obtain ⟨view, hview, hmem, hfeat⟩ :=
        hcons t (List.getElem?_mem hk) track ht v (List.getElem?_mem hj)
      obtain ⟨raw, hraw⟩ := Option.isSome_iff_exists.mp hfeat
      have hok := obsOk_of_consistent reconstruction t v view raw hview hmem hraw
      obtain ⟨g, hg⟩ := (obsOk_iff _ _ _ _ _).mp hok
      rw [hg] at hv
      cases hv
  · intro is_open' path' r
    cases h1' : is_open' path' with
    | false =>
      right; left
      exact ⟨by simp [WriteNVMFile, h1'], Or.inl rfl⟩
    | true =>
      cases h2' : is_open' (offset_path path') with
      | false =>
        right; left
        exact ⟨by simp [WriteNVMFile, h1', h2'], Or.inr rfl⟩
      | true =>
        rcases WriteNVMFile_cases is_open' path' r h1' h2' with
          ⟨-, hout, -⟩ | ⟨k, t, track, j, v, f, hk, ht, hj, hv, -, -, hout, -⟩
        · exact Or.inl hout
        · right; right
          exact ⟨f, t, track, v, hout, List.getElem?_mem hk, ht, List.getElem?_mem hj,
            lookup_miss_of_error r t v f hv⟩

theorem consistent_reconstruction_succeeds_witness :
    (fun _ : String => true) "x.nvm" = true ∧
    (fun _ : String => true) (offset_path "x.nvm") = true ∧
    (∀ t ∈ exampleReconstruction.TrackIds, ∀ track : Track Int,
      exampleReconstruction.Track t = some track → ∀ v ∈ track.ViewIds,
        ∃ view : View Int, exampleReconstruction.View v = some view ∧ t ∈ view.TrackIds ∧
          (view.GetFeature t).isSome = true) ∧
    (WriteNVMFile (fun _ => true) "x.nvm" exampleReconstruction).outcome
      = Outcome.returned true :=
  have hcons : ∀ t ∈ exampleReconstruction.TrackIds, ∀ track : Track Int,
      exampleReconstruction.Track t = some track → ∀ v ∈ track.ViewIds,
        ∃ view : View Int, exampleReconstruction.View v = some view ∧ t ∈ view.TrackIds ∧
          (view.GetFeature t).isSome = true := by
    intro t ht track htrack v hv
    have ht3 : t = 3 := by simpa [exampleReconstruction, Reconstruction.TrackIds] using ht
    subst ht3
    have htr : track = ⟨⟨1, 2, 3, 1⟩, ⟨255, 0, 0⟩, [5, 9]⟩ := by
      have : exampleReconstruction.Track 3 = some ⟨⟨1, 2, 3, 1⟩, ⟨255, 0, 0⟩, [5, 9]⟩ := rfl
      rw [this] at htrack
      exact (Option.some.inj htrack).symm
    subst htr
    have hv' : v = 5 ∨ v = 9 := by simpa using hv
    rcases hv' with rfl | rfl
    · exact ⟨⟨"a.jpg", exampleCamera, [3], exampleFeature 10⟩, rfl, by simp, rfl⟩
    · exact ⟨⟨"b.jpg", exampleCamera, [3], exampleFeature 20⟩, rfl, by simp, rfl⟩
  ⟨rfl, rfl, hcons,
    (consistent_reconstruction_succeeds (fun _ => true) "x.nvm" exampleReconstruction
      rfl rfl hcons).1⟩

end ClaimsOnLookups

section ClaimOnMapKeys

variable {S : Type} [Sub S]

/-- C18: the camera pass runs through, and in the state it leaves every view id
that is a key of the feature-index map is a key of the view-index map.  Hence,
in any state of the point pass (same two maps), once the view is stored, the
feature exists and the feature-index lookup of an observation has succeeded,
the body of the observation loop runs through: the view-index lookup does not
miss. -/
theorem feature_index_keys_have_view_index (reconstruction : Reconstruction S)
    (console : List Msg) :
    ∃ st : St S, cameraPass reconstruction console = Step.ok st ∧
      (∀ v : ViewId, (UMap.find? st.feature_index_mapping v).isSome = true →
        (UMap.find? st.view_id_to_index v).isSome = true) ∧
      (∀ (t : TrackId) (v : ViewId) (track_index : Int),
        findFeatureIndex st.feature_index_mapping v t = some track_index →
        ∃ view_index : Int, UMap.find? st.view_id_to_index v = some view_index) ∧
      (∀ (st2 : St S), st2.view_id_to_index = st.view_id_to_index →
        st2.feature_index_mapping = st.feature_index_mapping →
        ∀ (t : TrackId) (v : ViewId) (view : View S) (raw : Feature S) (track_index : Int),
          reconstruction.View v = some view → view.GetFeature t = some raw →
          findFeatureIndex st2.feature_index_mapping v t = some track_index →
          ∃ view_index : Int, UMap.find? st2.view_id_to_index v = some view_index ∧
            observationBody reconstruction t v st2 = Step.ok (st2.nvm_write
              (observationGroup view_index track_index
                (raw - Feature.mk view.Camera.PrincipalPointX
                  view.Camera.PrincipalPointY)))) := by
  have hkey : ∀ (t : TrackId) (v : ViewId) (track_index : Int),
      findFeatureIndex (finalFeatureIndex reconstruction) v t = some track_index →
      ∃ view_index : Int, UMap.find? (finalViewIndex reconstruction) v = some view_index := by
    intro t v ti h
    apply Option.isSome_iff_exists.mp
    apply finalFeatureIndex_key
    unfold findFeatureIndex at h
    cases hf : UMap.find? (finalFeatureIndex reconstruction) v with
    | none => simp [hf] at h
    | some inner => rfl
  refine ⟨_, cameraPass_eq reconstruction console, ?_, hkey, ?_⟩
  · intro v h
    exact finalFeatureIndex_key reconstruction v h
  · intro st2 hvm hfm t v view raw ti hview hraw hti
    simp only at hvm hfm
    rw [hfm] at hti
    obtain ⟨vi, hvi⟩ := hkey t v ti hti
    refine ⟨vi, by rw [hvm]; exact hvi, ?_⟩
    rw [observationBody_eq, hvm, hfm]
    simp [observationResult, hview, hraw, hti, hvi, renderGroup]

theorem feature_index_keys_have_view_index_witness :
    ∃ st : St Int, cameraPass exampleReconstruction [] = Step.ok st ∧
      (∀ v : ViewId, (UMap.find? st.feature_index_mapping v).isSome = true →
        (UMap.find? st.view_id_to_index v).isSome = true) ∧
      (UMap.find? st.feature_index_mapping 9).isSome = true ∧
      (UMap.find? st.view_id_to_index 9).isSome = true := by
  obtain ⟨st, hst, hkeys, -, -⟩ := feature_index_keys_have_view_index exampleReconstruction []
  have h9 : (UMap.find? st.feature_index_mapping 9).isSome = true := by
    have hst' := cameraPass_eq exampleReconstruction []
    rw [hst] at hst'
    have := Step.ok.inj hst'
    subst this
    decide
  exact ⟨st, hst, hkeys, h9, hkeys 9 h9⟩

end ClaimOnMapKeys

end theia
